import Mathlib

/-!
Verification of the packed freelist container (src/src/lib.rs).

The Rust source is shallowly embedded: machine integers become `Nat` with
explicit wrapping (`% 2^32` for the one u32 addition, `% 0x10000` for `as u16`
casts and for `id & ALLOC_INDEX_MASK`), `Vec<T>` becomes a `List T` for the
length-visible part plus a separate `objectsCap` field recording
`Vec::capacity()` (the vector is allocated once with `max_objects` elements and
never pushed, so its capacity stays `max_objects`; `Vec::pop` shrinks only the
length).  Every Rust panic (failed `assert!`, out-of-bounds indexing, `unwrap`
of `None`, arithmetic underflow of `num_objects - 1`) is modelled by returning
`none`; a returned `some` is a normally-completed operation.
-/

namespace PackedFreelistModel

/-- Used to extract the allocation index from an object ID (u16::MAX). -/
def ALLOC_INDEX_MASK : Nat := 0xFFFF

/-- Sentinel marking an allocation as owning no object (u16::MAX). -/
def TOMBSTONE : Nat := 0xFFFF

/-- Modulus of the u32 id arithmetic. -/
def U32_MOD : Nat := 2 ^ 32

/-- One allocation record of the table (struct Allocation in the source). -/
structure Allocation where
  allocation_id : Nat
  object_index : Nat
  next_allocation : Nat
  deriving Repr, DecidableEq, Inhabited

/-- The container (struct PackedFreelist<T> in the source).  `objects` is the
visible contents of the objects Vec (its Rust `len()`), `objectsCap` its
allocated capacity, which `capacity()` returns. -/
structure PackedFreelist (T : Type) where
  objects : List T
  objectsCap : Nat
  num_objects : Nat
  object_alloc_ids : List Nat
  allocations : List Allocation
  last_allocation : Nat
  next_allocation : Nat
  deriving Repr, DecidableEq

instance : Inhabited (PackedFreelist T) :=
  ⟨⟨[], 0, 0, [], [], 0, 0⟩⟩

/-- The slot index of an id: id & ALLOC_INDEX_MASK. -/
def slotOf (id : Nat) : Nat := id % 0x10000

/-- The generation field of an id: its 16 most significant bits. -/
def genOf (id : Nat) : Nat := id / 0x10000

/-- Helper used to model `r.allocations[max_objects - 1].next_allocation = 0`
(a single in-place field write; the index is always in bounds there). -/
def setNextAllocation (l : List Allocation) (i : Nat) (v : Nat) : List Allocation :=
  match l[i]? with
  | none => l
  | some a => l.set i { a with next_allocation := v }

/-- The initial allocation table: record i has id i, no object, and links to
record i+1; afterwards the last record is relinked to 0, closing the ring. -/
def newAllocations (max_objects : Nat) : List Allocation :=
  let base : List Allocation := (List.range max_objects).map fun i =>
    { allocation_id := i, object_index := TOMBSTONE, next_allocation := i + 1 }
  if max_objects > 0 then setNextAllocation base (max_objects - 1) 0 else base

/-- PackedFreelist::new.  `none` models a panic: the `assert!(max_objects <
TOMBSTONE)`.  The `(max_objects - 1) as u16` initialiser of `last_allocation`
is modelled with wrapping semantics, `(max_objects + 0xFFFF) % 0x10000`. -/
def new (T : Type) [Inhabited T] (max_objects : Nat) : Option (PackedFreelist T) :=
  if max_objects < TOMBSTONE then
    some { objects := List.replicate max_objects default,
           objectsCap := max_objects,
           num_objects := 0,
           object_alloc_ids := List.replicate max_objects 0,
           allocations := newAllocations max_objects,
           last_allocation := (max_objects + 0xFFFF) % 0x10000,
           next_allocation := 0 }
  else none

/-- PackedFreelist::contains.  Total: it only uses checked `.get`. -/
def contains (s : PackedFreelist T) (id : Nat) : Bool :=
  match s.allocations[id % 0x10000]? with
  | none => false
  | some allocation => allocation.allocation_id == id && allocation.object_index != TOMBSTONE

/-- PackedFreelist::size. -/
def size (s : PackedFreelist T) : Nat := s.num_objects

/-- PackedFreelist::capacity (`self.objects.capacity()`). -/
def capacity (s : PackedFreelist T) : Nat := s.objectsCap

/-- PackedFreelist::insert_alloc.  `some (.error i)` is the
`Err(AllocationError)` return; `none` models the panic of the unchecked write
`self.object_alloc_ids[self.num_objects] = ...`; `some (.ok (a, s))` returns
the updated allocation record together with the mutated container. -/
def insert_alloc (s : PackedFreelist T) : Option (Except Nat (Allocation × PackedFreelist T)) :=
  if s.num_objects ≥ s.objectsCap then some (.error s.next_allocation)
  else
    match s.allocations[s.next_allocation]? with
    | none => some (.error s.next_allocation)
    | some allocation =>
      let a' : Allocation :=
        { allocation_id := (allocation.allocation_id + 0x10000) % U32_MOD,
          object_index := s.num_objects % 0x10000,
          next_allocation := allocation.next_allocation }
      if s.num_objects < s.object_alloc_ids.length then
        some (.ok (a', { s with
          next_allocation := allocation.next_allocation,
          allocations := s.allocations.set s.next_allocation a',
          object_alloc_ids := s.object_alloc_ids.set s.num_objects a'.allocation_id,
          num_objects := s.num_objects + 1 }))
      else none

/-- Result of PackedFreelist::insert: `ok` carries the returned id and the new
container, `err` the AllocationError's allocation_index (the container is not
mutated on that path). -/
inductive InsertResult (T : Type) where
  | ok (id : Nat) (s : PackedFreelist T)
  | err (allocation_index : Nat)
  deriving Repr, DecidableEq

/-- PackedFreelist::insert.  `none` models the panic of the unchecked
`&mut self.objects[object_index]` when the index is not below the Vec length. -/
def insert (s : PackedFreelist T) (val : T) : Option (InsertResult T) :=
  match insert_alloc s with
  | none => none
  | some (.error idx) => some (.err idx)
  | some (.ok (a, s')) =>
    if a.object_index < s'.objects.length
    then some (.ok a.allocation_id { s' with objects := s'.objects.set a.object_index val })
    else none

/-- Bounds-checked `slice::swap` (panics, i.e. `none`, when an index is out of
bounds). -/
def listSwap (l : List T) (i j : Nat) : Option (List T) :=
  match l[i]?, l[j]? with
  | some a, some b => some ((l.set i b).set j a)
  | _, _ => none

/-- The relocation step of PackedFreelist::remove (lines 132-138 of the
source): when the removed object is not the last live one, swap the last live
object into its position, copy its owning id in `object_alloc_ids`, and fix up
that owner's `object_index`.  `none` models the panics of the unchecked
indexing.  `allocation` is the record found for the removed id. -/
def removeRelocate (s : PackedFreelist T) (allocation : Allocation) :
    Option (PackedFreelist T) :=
  let last := s.num_objects - 1
  if allocation.object_index = last then some s
  else
    match listSwap s.objects last allocation.object_index, s.object_alloc_ids[last]? with
    | some objs, some movedId =>
      if allocation.object_index < s.object_alloc_ids.length then
        match s.allocations[movedId % 0x10000]? with
        | some movedAlloc =>
          some { s with
            objects := objs,
            object_alloc_ids := s.object_alloc_ids.set allocation.object_index movedId,
            allocations := s.allocations.set (movedId % 0x10000)
              { movedAlloc with object_index := allocation.object_index } }
        | none => none
      else none
    | _, _ => none

/-- The tail of PackedFreelist::remove (lines 142-153): pop the objects Vec,
decrement `num_objects`, append the freed slot to the free-queue tail, then
tombstone the freed record via the trailing `get_mut(...).and_then(...)`. -/
def removeFinish (s : PackedFreelist T) (slot last_index : Nat) :
    Option (PackedFreelist T) :=
  let s2 : PackedFreelist T :=
    { s with objects := s.objects.dropLast, num_objects := s.num_objects - 1 }
  match s2.allocations[s2.last_allocation]? with
  | none => none
  | some tailAlloc =>
    let s3 : PackedFreelist T :=
      { s2 with
        allocations := s2.allocations.set s2.last_allocation
          { tailAlloc with next_allocation := last_index },
        last_allocation := last_index }
    match s3.allocations[slot]? with
    | none => some s3
    | some a2 =>
      some { s3 with
        allocations := s3.allocations.set slot { a2 with object_index := TOMBSTONE } }

/-- PackedFreelist::remove.  Faithful to the source: the id is only ever used
masked (`id & ALLOC_INDEX_MASK`); a missing slot panics ("oh god"), a slot
whose `object_index` is not a valid objects index panics ("no no no no"), and
`num_objects - 1` with `num_objects == 0` underflows (panic in either build
profile: directly in debug, in the subsequent `swap` bounds check in release).
`none` models all of these. -/
def remove (s : PackedFreelist T) (id : Nat) : Option (PackedFreelist T) :=
  match s.allocations[id % 0x10000]? with
  | none => none
  | some allocation =>
    match s.objects[allocation.object_index]? with
    | none => none
    | some _ =>
      if s.num_objects = 0 then none
      else
        (removeRelocate s allocation).bind fun s1 =>
          removeFinish s1 (id % 0x10000) (allocation.allocation_id % 0x10000)

/-- The Index impl: both lookups are `.unwrap()`ed, so `none` models a panic;
note the stored generation is never compared with the queried id. -/
def index (s : PackedFreelist T) (idx : Nat) : Option T :=
  match s.allocations[idx % 0x10000]? with
  | none => none
  | some alloc => s.objects[alloc.object_index]?

/-- The Deref impl: the contiguous-slice view is the whole objects Vec. -/
def deref (s : PackedFreelist T) : List T := s.objects

/-- The IntoIterator impl: iterates the whole objects Vec. -/
def into_iter (s : PackedFreelist T) : List T := s.objects

/-- States reachable from `new` by the mutating public operations (contains,
size, capacity, index, deref and iteration do not mutate). -/
inductive Reachable [Inhabited T] : PackedFreelist T → Prop where
  | init (n : Nat) (s : PackedFreelist T) : new T n = some s → Reachable s
  | insertStep (s : PackedFreelist T) (v : T) (id : Nat) (s' : PackedFreelist T) :
      Reachable s → insert s v = some (.ok id s') → Reachable s'
  | removeStep (s : PackedFreelist T) (id : Nat) (s' : PackedFreelist T) :
      Reachable s → remove s id = some s' → Reachable s'

/-! ### List helper lemmas -/

theorem getE_set_self {l : List α} {i : Nat} (a : α) (h : i < l.length) :
    (l.set i a)[i]? = some a := by
  simp [List.getElem?_set_self', List.getElem?_eq_getElem h]

theorem getE_set_ne {l : List α} {i j : Nat} (a : α) (h : i ≠ j) :
    (l.set i a)[j]? = l[j]? :=
  List.getElem?_set_ne h

theorem getE_replicate {a : α} {n m : Nat} (h : m < n) :
    (List.replicate n a)[m]? = some a := by
  rw [List.getElem?_eq_getElem (by simpa using h)]
  simp [List.getElem_replicate]

theorem getE_dropLast {l : List α} {m : Nat} (h : m + 1 < l.length) :
    l.dropLast[m]? = l[m]? := by
  rw [List.dropLast_eq_take, List.getElem?_take_of_lt (by omega)]

theorem listSwap_some {l : List α} {i j : Nat} {a b : α}
    (hi : l[i]? = some a) (hj : l[j]? = some b) :
    listSwap l i j = some ((l.set i b).set j a) := by
  simp [listSwap, hi, hj]

theorem listSwap_inv {l m : List α} {i j : Nat} (h : listSwap l i j = some m) :
    ∃ a b, l[i]? = some a ∧ l[j]? = some b ∧ m = (l.set i b).set j a := by
  unfold listSwap at h
  rcases hi : l[i]? with _ | a <;> rcases hj : l[j]? with _ | b <;>
    simp [hi, hj] at h
  exact ⟨a, b, rfl, rfl, h.symm⟩

theorem getLast?_range' (x : Nat) : ∀ k, 1 ≤ k → (List.range' x k).getLast? = some (x + k - 1) := by
  intro k
  induction k generalizing x with
  | zero => omega
  | succ k ih =>
    intro _
    rw [List.range'_succ, List.getLast?_cons]
    rcases Nat.eq_zero_or_pos k with hk | hk
    · subst hk; simp
    · rw [ih (x + 1) hk]
      simp only [Option.getD_some, Option.some.injEq]
      omega

/-! ### Accessors and the reachable-state invariant -/

/-- The allocation record at slot i (meaningful when i is in range). -/
def allocAt (s : PackedFreelist T) (i : Nat) : Allocation := s.allocations.getD i default

/-- The reverse-map entry at storage position p. -/
def oaiAt (s : PackedFreelist T) (p : Nat) : Nat := s.object_alloc_ids.getD p 0

/-- The free-queue link of the record at slot i. -/
def nextAt (s : PackedFreelist T) (i : Nat) : Nat := (allocAt s i).next_allocation

/-- Slot i currently holds a free record. -/
def freeAt (s : PackedFreelist T) (i : Nat) : Prop :=
  ∃ a, s.allocations[i]? = some a ∧ a.object_index = TOMBSTONE

/-- Following the free-queue links k times starting from x. -/
def chain (s : PackedFreelist T) : Nat → Nat → List Nat
  | _, 0 => []
  | x, k + 1 => x :: chain s (nextAt s x) k

/-- The free-queue invariant: the first capacity - len links from the head
cursor visit pairwise-distinct free records and end at the tail cursor.  In
reachable states it is only guaranteed while the container has never been full
(see hQueue below). -/
def QueueInv (s : PackedFreelist T) : Prop :=
  (chain s s.next_allocation (s.objectsCap - s.num_objects)).Nodup ∧
  (∀ i ∈ chain s s.next_allocation (s.objectsCap - s.num_objects), freeAt s i) ∧
  (chain s s.next_allocation (s.objectsCap - s.num_objects)).getLast? = some s.last_allocation

/-- The data-model invariant of reachable container states.  `num_objects <
objects.length` says the object Vec still has a spare (never-yet-written)
slot, which holds exactly when fewer than capacity inserts have ever
completed; only then is the free queue guaranteed intact. -/
structure Inv (s : PackedFreelist T) : Prop where
  hCapA : s.allocations.length = s.objectsCap
  hCapO : s.object_alloc_ids.length = s.objectsCap
  hCapLt : s.objectsCap < TOMBSTONE
  hNumLe : s.num_objects ≤ s.objects.length
  hObjLe : s.objects.length ≤ s.objectsCap
  hLast : s.objectsCap ≠ 0 → s.last_allocation < s.objectsCap
  hNext : s.objectsCap ≠ 0 → s.next_allocation < s.objectsCap
  hNextF : ∀ (i : Nat) (a : Allocation), s.allocations[i]? = some a → a.next_allocation < s.objectsCap
  hSlot : ∀ (i : Nat) (a : Allocation), s.allocations[i]? = some a → a.allocation_id % 0x10000 = i
  hIdLt : ∀ (i : Nat) (a : Allocation), s.allocations[i]? = some a → a.allocation_id < U32_MOD
  hLive : ∀ (i : Nat) (a : Allocation), s.allocations[i]? = some a → a.object_index ≠ TOMBSTONE →
      a.object_index < s.num_objects ∧
      s.object_alloc_ids[a.object_index]? = some a.allocation_id
  hPos : ∀ p, p < s.num_objects → ∃ (id : Nat) (a : Allocation), s.object_alloc_ids[p]? = some id ∧
      s.allocations[id % 0x10000]? = some a ∧ a.allocation_id = id ∧ a.object_index = p
  hQueue : s.num_objects < s.objects.length → QueueInv s

/-! ### The invariant holds in the initial state -/

theorem allocAt_eq {s : PackedFreelist T} {i : Nat} {a : Allocation}
    (h : s.allocations[i]? = some a) : allocAt s i = a := by
  unfold allocAt
  rw [List.getD_eq_getElem?_getD, h]
  rfl

theorem oaiAt_eq {s : PackedFreelist T} {p : Nat} {id : Nat}
    (h : s.object_alloc_ids[p]? = some id) : oaiAt s p = id := by
  unfold oaiAt
  rw [List.getD_eq_getElem?_getD, h]
  rfl

theorem newAllocations_length (n : Nat) : (newAllocations n).length = n := by
  simp only [newAllocations, setNextAllocation]
  split
  · split
    · simp
    · simp
  · simp

theorem newAllocations_get {n i : Nat} (hi : i < n) :
    (newAllocations n)[i]? = some { allocation_id := i,
                                    object_index := TOMBSTONE,
                                    next_allocation := if i = n - 1 then 0 else i + 1 } := by
  have hbase : ∀ j, j < n → ((List.range n).map fun i =>
      ({ allocation_id := i, object_index := TOMBSTONE, next_allocation := i + 1 } : Allocation))[j]? =
      some { allocation_id := j, object_index := TOMBSTONE, next_allocation := j + 1 } := by
    intro j hj
    rw [List.getElem?_map, List.getElem?_range hj]
    rfl
  have hlen : ((List.range n).map fun i =>
      ({ allocation_id := i, object_index := TOMBSTONE, next_allocation := i + 1 } : Allocation)).length = n := by
    simp
  simp only [newAllocations, setNextAllocation]
  rw [if_pos (by omega : n > 0)]
  rw [hbase (n - 1) (by omega)]
  by_cases hx : i = n - 1
  · subst hx
    rw [getE_set_self _ (by omega)]
    simp
  · rw [getE_set_ne _ (fun hc => hx hc.symm)]
    rw [hbase i hi]
    simp [hx]

theorem new_eq_some {T : Type} [Inhabited T] {n : Nat} {s : PackedFreelist T}
    (h : new T n = some s) :
    n < TOMBSTONE ∧ s = { objects := List.replicate n default,
                          objectsCap := n,
                          num_objects := 0,
                          object_alloc_ids := List.replicate n 0,
                          allocations := newAllocations n,
                          last_allocation := (n + 0xFFFF) % 0x10000,
                          next_allocation := 0 } := by
  unfold new at h
  split at h
  · exact ⟨by assumption, (Option.some.injEq _ _ ▸ h).symm⟩
  · exact absurd h (by simp)

theorem chain_new {T : Type} [Inhabited T] {n : Nat} {s : PackedFreelist T}
    (hs : s.allocations = newAllocations n) :
    ∀ k x, x < n → x + k ≤ n → chain s x k = List.range' x k := by
  intro k
  induction k with
  | zero => intro x _ _; rfl
  | succ k ih =>
    intro x hx hxk
    have hnext : nextAt s x = if x = n - 1 then 0 else x + 1 := by
      unfold nextAt
      rw [allocAt_eq (by rw [hs]; exact newAllocations_get hx)]

    rw [List.range'_succ]
    show x :: chain s (nextAt s x) k = x :: List.range' (x + 1) k
    by_cases hlast : x = n - 1
    · have hk : k = 0 := by omega
      subst hk
      rfl
    · rw [hnext, if_neg hlast]
      rw [ih (x + 1) (by omega) (by omega)]

theorem inv_new {T : Type} [Inhabited T] {n : Nat} {s : PackedFreelist T}
    (h : new T n = some s) : Inv s := by
  obtain ⟨hn, hs⟩ := new_eq_some h
  subst hs
  refine ⟨?_, ?_, ?_, ?_, ?_, ?_, ?_, ?_, ?_, ?_, ?_, ?_, ?_⟩
  · exact newAllocations_length n
  · simp
  · exact hn
  · simp
  · simp
  · intro h0
    simp only []
    have : n ≠ 0 := by simpa using h0
    unfold TOMBSTONE at hn
    omega
  · intro h0
    have : n ≠ 0 := by simpa using h0
    simp only []
    omega
  · intro i a ha
    have hi : i < n := by
      by_contra hc
      rw [List.getElem?_eq_none (by rw [newAllocations_length]; omega)] at ha
      exact absurd ha (by simp)
    rw [newAllocations_get hi] at ha
    injection ha with ha
    subst ha
    simp only []
    split <;> omega
  · intro i a ha
    have hi : i < n := by
      by_contra hc
      rw [List.getElem?_eq_none (by rw [newAllocations_length]; omega)] at ha
      exact absurd ha (by simp)
    rw [newAllocations_get hi] at ha
    injection ha with ha
    subst ha
    show (i : Nat) % 0x10000 = i
    unfold TOMBSTONE at hn
    omega
  · intro i a ha
    have hi : i < n := by
      by_contra hc
      rw [List.getElem?_eq_none (by rw [newAllocations_length]; omega)] at ha
      exact absurd ha (by simp)
    rw [newAllocations_get hi] at ha
    injection ha with ha
    subst ha
    show (i : Nat) < U32_MOD
    unfold U32_MOD
    unfold TOMBSTONE at hn
    omega
  · intro i a ha hlive
    exfalso
    have hi : i < n := by
      by_contra hc
      rw [List.getElem?_eq_none (by rw [newAllocations_length]; omega)] at ha
      exact absurd ha (by simp)
    rw [newAllocations_get hi] at ha
    injection ha with ha
    subst ha
    exact hlive rfl
  · intro p hp
    exact absurd hp (by simp)
  · intro hlt
    have hn0 : 0 < n := by simpa using hlt
    have hchain : chain { objects := List.replicate n (default : T),
                          objectsCap := n,
                          num_objects := 0,
                          object_alloc_ids := List.replicate n 0,
                          allocations := newAllocations n,
                          last_allocation := (n + 0xFFFF) % 0x10000,
                          next_allocation := 0 } 0 n = List.range' 0 n :=
      chain_new rfl n 0 hn0 (by omega)
    refine ⟨?_, ?_, ?_⟩
    · show (chain _ 0 (n - 0)).Nodup
      rw [Nat.sub_zero, hchain]
      simpa using List.nodup_range' 0 n
    · intro i hi
      rw [Nat.sub_zero, hchain] at hi
      have : i < n := by
        have := List.mem_range'_1.mp hi
        omega
      exact ⟨_, newAllocations_get this, rfl⟩
    · show (chain _ 0 (n - 0)).getLast? = some ((n + 0xFFFF) % 0x10000)
      rw [Nat.sub_zero, hchain, getLast?_range' 0 n hn0]
      unfold TOMBSTONE at hn
      simp only [Option.some.injEq]
      omega

/-! ### Insert preserves the invariant -/

theorem slot_bump (x : Nat) : (x + 0x10000) % U32_MOD % 0x10000 = x % 0x10000 := by
  have h1 : (0x10000 : Nat) ∣ U32_MOD := ⟨0x10000, rfl⟩
  rw [Nat.mod_mod_of_dvd _ h1, Nat.add_mod_right]

theorem allocAt_congr {s s' : PackedFreelist T} {x : Nat}
    (h : s'.allocations[x]? = s.allocations[x]?) : allocAt s' x = allocAt s x := by
  unfold allocAt
  rw [List.getD_eq_getElem?_getD, List.getD_eq_getElem?_getD, h]

theorem chain_congr {s s' : PackedFreelist T} (h : ∀ x, nextAt s' x = nextAt s x) :
    ∀ k x, chain s' x k = chain s x k := by
  intro k
  induction k with
  | zero => intro x; rfl
  | succ k ih =>
    intro x
    show x :: chain s' (nextAt s' x) k = x :: chain s (nextAt s x) k
    rw [h x, ih]

theorem chain_length (s : PackedFreelist T) : ∀ k x, (chain s x k).length = k := by
  intro k
  induction k with
  | zero => intro x; rfl
  | succ k ih => intro x; show (x :: chain s (nextAt s x) k).length = k + 1; simp [ih]

/-- insert when the container is full: the CapacityExhausted error, carrying
next_allocation as the allocation_index. -/
theorem insert_full {T : Type} {s : PackedFreelist T} (v : T)
    (hcap : s.num_objects ≥ s.objectsCap) :
    insert s v = some (.err s.next_allocation) := by
  unfold insert insert_alloc
  rw [if_pos hcap]

theorem insert_errhead {T : Type} {s : PackedFreelist T} (v : T)
    (hcap : ¬ s.num_objects ≥ s.objectsCap)
    (hg : s.allocations[s.next_allocation]? = none) :
    insert s v = some (.err s.next_allocation) := by
  unfold insert insert_alloc
  rw [if_neg hcap, hg]

theorem insert_panic_oai {T : Type} {s : PackedFreelist T} (v : T) {b : Allocation}
    (hcap : ¬ s.num_objects ≥ s.objectsCap)
    (hg : s.allocations[s.next_allocation]? = some b)
    (hoai : ¬ s.num_objects < s.object_alloc_ids.length) :
    insert s v = none := by
  unfold insert insert_alloc
  rw [if_neg hcap, hg]
  dsimp only
  rw [if_neg hoai]

/-- Full success path of insert. -/
theorem insert_eq {T : Type} {s : PackedFreelist T} (v : T) {b : Allocation}
    (hcap : ¬ s.num_objects ≥ s.objectsCap)
    (hg : s.allocations[s.next_allocation]? = some b)
    (hoai : s.num_objects < s.object_alloc_ids.length) :
    insert s v =
      (if s.num_objects % 0x10000 < s.objects.length
       then some (.ok ((b.allocation_id + 0x10000) % U32_MOD)
         { objects := s.objects.set (s.num_objects % 0x10000) v,
           objectsCap := s.objectsCap,
           num_objects := s.num_objects + 1,
           object_alloc_ids := s.object_alloc_ids.set s.num_objects
             ((b.allocation_id + 0x10000) % U32_MOD),
           allocations := s.allocations.set s.next_allocation
             { allocation_id := (b.allocation_id + 0x10000) % U32_MOD,
               object_index := s.num_objects % 0x10000,
               next_allocation := b.next_allocation },
           last_allocation := s.last_allocation,
           next_allocation := b.next_allocation })
       else none) := by
  unfold insert insert_alloc
  rw [if_neg hcap, hg]
  dsimp only
  rw [if_pos hoai]

/-- Inversion of a successful insert: the hypotheses that had to hold and the
exact shape of the resulting state. -/
theorem insert_ok_inv {T : Type} {s : PackedFreelist T} {v : T} {id : Nat}
    {s' : PackedFreelist T} (h : insert s v = some (.ok id s')) :
    ∃ a : Allocation, s.allocations[s.next_allocation]? = some a ∧
      s.num_objects < s.objectsCap ∧
      s.num_objects < s.object_alloc_ids.length ∧
      s.num_objects % 0x10000 < s.objects.length ∧
      id = (a.allocation_id + 0x10000) % U32_MOD ∧
      s'.objects = s.objects.set (s.num_objects % 0x10000) v ∧
      s'.objectsCap = s.objectsCap ∧
      s'.num_objects = s.num_objects + 1 ∧
      s'.object_alloc_ids = s.object_alloc_ids.set s.num_objects id ∧
      s'.allocations = s.allocations.set s.next_allocation
        { allocation_id := id,
          object_index := s.num_objects % 0x10000,
          next_allocation := a.next_allocation } ∧
      s'.last_allocation = s.last_allocation ∧
      s'.next_allocation = a.next_allocation := by
  by_cases hcap : s.num_objects ≥ s.objectsCap
  · rw [insert_full v hcap] at h
    exact absurd h (by simp)
  rcases hg : s.allocations[s.next_allocation]? with _ | b
  · rw [insert_errhead v hcap hg] at h
    exact absurd h (by simp)
  by_cases hoai : s.num_objects < s.object_alloc_ids.length
  · rw [insert_eq v hcap hg hoai] at h
    by_cases hobj : s.num_objects % 0x10000 < s.objects.length
    · rw [if_pos hobj] at h
      simp only [Option.some.injEq, InsertResult.ok.injEq] at h
      obtain ⟨hid, hs'⟩ := h
      refine ⟨b, rfl, by omega, hoai, hobj, hid.symm, ?_, ?_, ?_, ?_, ?_, ?_, ?_⟩ <;>
        rw [← hs'] <;> rw [hid]
    · rw [if_neg hobj] at h
      exact absurd h (by simp)
  · rw [insert_panic_oai v hcap hg hoai] at h
    exact absurd h (by simp)

theorem inv_insert {T : Type} {s : PackedFreelist T} {v : T} {id : Nat}
    {s' : PackedFreelist T} (hInv : Inv s) (h : insert s v = some (.ok id s')) :
    Inv s' := by
  obtain ⟨a, hg, hcap, hoai, hobj, hid, eObj, eCap, eNum, eOai, eAll, eLast, eNext⟩ :=
    insert_ok_inv h
  have hcapLt : s.objectsCap < TOMBSTONE := hInv.hCapLt
  have hnum16 : s.num_objects % 0x10000 = s.num_objects :=
    Nat.mod_eq_of_lt (by unfold TOMBSTONE at hcapLt; omega)
  have hspare : s.num_objects < s.objects.length := by rw [hnum16] at hobj; exact hobj
  have hQ := hInv.hQueue hspare
  have hheadLt : s.next_allocation < s.allocations.length :=
    (List.getElem?_eq_some.mp hg).1
  have hfc : s.objectsCap - s.num_objects = (s.objectsCap - s.num_objects - 1) + 1 := by
    omega
  have hchainCons : chain s s.next_allocation (s.objectsCap - s.num_objects) =
      s.next_allocation :: chain s (nextAt s s.next_allocation)
        (s.objectsCap - s.num_objects - 1) := by
    rw [hfc]
    rfl
  have haTomb : a.object_index = TOMBSTONE := by
    have hmem : s.next_allocation ∈ chain s s.next_allocation (s.objectsCap - s.num_objects) := by
      rw [hchainCons]
      exact List.mem_cons_self _ _
    obtain ⟨b, hb, hbT⟩ := hQ.2.1 _ hmem
    rw [hg] at hb
    injection hb with hb
    rw [hb]
    exact hbT
  have hnewrec : s'.allocations[s.next_allocation]? =
      some { allocation_id := id,
             object_index := s.num_objects % 0x10000,
             next_allocation := a.next_allocation } := by
    rw [eAll]
    exact getE_set_self _ hheadLt
  have hother : ∀ i : Nat, i ≠ s.next_allocation → s'.allocations[i]? = s.allocations[i]? := by
    intro i hi
    rw [eAll]
    exact getE_set_ne _ (fun hc => hi hc.symm)
  have hslotA := hInv.hSlot _ _ hg
  refine ⟨?_, ?_, ?_, ?_, ?_, ?_, ?_, ?_, ?_, ?_, ?_, ?_, ?_⟩
  · rw [eAll, eCap, List.length_set]
    exact hInv.hCapA
  · rw [eOai, eCap, List.length_set]
    exact hInv.hCapO
  · rw [eCap]
    exact hcapLt
  · rw [eNum, eObj, List.length_set]
    omega
  · rw [eObj, eCap, List.length_set]
    exact hInv.hObjLe
  · rw [eCap, eLast]
    exact hInv.hLast
  · intro h0
    rw [eNext, eCap]
    exact hInv.hNextF _ _ hg
  · intro i b hb
    rw [eCap]
    by_cases hi : i = s.next_allocation
    · subst hi
      rw [hnewrec] at hb
      injection hb with hb
      rw [← hb]
      show a.next_allocation < s.objectsCap
      exact hInv.hNextF _ _ hg
    · rw [hother i hi] at hb
      exact hInv.hNextF _ _ hb
  · intro i b hb
    by_cases hi : i = s.next_allocation
    · subst hi
      rw [hnewrec] at hb
      injection hb with hb
      rw [← hb]
      show id % 0x10000 = s.next_allocation
      rw [hid, slot_bump]
      exact hslotA
    · rw [hother i hi] at hb
      exact hInv.hSlot _ _ hb
  · intro i b hb
    by_cases hi : i = s.next_allocation
    · subst hi
      rw [hnewrec] at hb
      injection hb with hb
      rw [← hb]
      show id < U32_MOD
      rw [hid]
      exact Nat.mod_lt _ (by norm_num [U32_MOD])
    · rw [hother i hi] at hb
      exact hInv.hIdLt _ _ hb
  · intro i b hb hbT
    by_cases hi : i = s.next_allocation
    · subst hi
      rw [hnewrec] at hb
      injection hb with hb
      rw [← hb]
      show s.num_objects % 0x10000 < s'.num_objects ∧
        s'.object_alloc_ids[s.num_objects % 0x10000]? = some id
      rw [eNum, eOai, hnum16]
      exact ⟨by omega, getE_set_self _ hoai⟩
    · rw [hother i hi] at hb
      obtain ⟨hlt, hoe⟩ := hInv.hLive _ _ hb hbT
      refine ⟨by rw [eNum]; omega, ?_⟩
      rw [eOai, getE_set_ne _ (by omega : s.num_objects ≠ b.object_index), hoe]
  · intro p hp
    rw [eNum] at hp
    by_cases hpn : p = s.num_objects
    · subst hpn
      refine ⟨id, { allocation_id := id,
                    object_index := s.num_objects % 0x10000,
                    next_allocation := a.next_allocation }, ?_, ?_, rfl, ?_⟩
      · rw [eOai]
        exact getE_set_self _ hoai
      · have hidx : id % 0x10000 = s.next_allocation := by
          rw [hid, slot_bump]
          exact hslotA
        rw [hidx]
        exact hnewrec
      · exact hnum16
    · obtain ⟨id0, a0, hoe0, hga0, hida0, hpos0⟩ := hInv.hPos p (by omega)
      have ha0T : a0.object_index ≠ TOMBSTONE := by
        rw [hpos0]
        have : p < s.objectsCap := by
          have := hInv.hObjLe
          omega
        unfold TOMBSTONE at hcapLt ⊢
        omega
      have hslot0 : id0 % 0x10000 ≠ s.next_allocation := by
        intro hc
        rw [hc, hg] at hga0
        injection hga0 with hga0
        rw [hga0] at haTomb
        exact ha0T haTomb
      refine ⟨id0, a0, ?_, ?_, hida0, hpos0⟩
      · rw [eOai, getE_set_ne _ (by omega : s.num_objects ≠ p), hoe0]
      · rw [hother _ hslot0]
        exact hga0
  · intro hlt
    have hsp : s.num_objects + 1 < s.objects.length := by
      rw [eNum, eObj, List.length_set] at hlt
      exact hlt
    have hnextEq : ∀ x, nextAt s' x = nextAt s x := by
      intro x
      by_cases hx : x = s.next_allocation
      · subst hx
        unfold nextAt
        rw [allocAt_eq hnewrec, allocAt_eq hg]
      · unfold nextAt
        rw [allocAt_congr (hother x hx)]
    have hrestNe : chain s (nextAt s s.next_allocation) (s.objectsCap - s.num_objects - 1) ≠ [] := by
      intro hc
      have hlen := chain_length s (s.objectsCap - s.num_objects - 1) (nextAt s s.next_allocation)
      rw [hc] at hlen
      simp only [List.length_nil] at hlen
      have hOb := hInv.hObjLe
      omega
    have hnextHead : s'.next_allocation = nextAt s s.next_allocation := by
      rw [eNext]
      unfold nextAt
      rw [allocAt_eq hg]
    have hheadNotMem : s.next_allocation ∉
        chain s (nextAt s s.next_allocation) (s.objectsCap - s.num_objects - 1) := by
      have := hQ.1
      rw [hchainCons] at this
      exact (List.nodup_cons.mp this).1
    have hchain' : chain s' s'.next_allocation (s'.objectsCap - s'.num_objects) =
        chain s (nextAt s s.next_allocation) (s.objectsCap - s.num_objects - 1) := by
      rw [eCap, eNum, hnextHead]
      have : s.objectsCap - (s.num_objects + 1) = s.objectsCap - s.num_objects - 1 := by omega
      rw [this, chain_congr hnextEq]
    refine ⟨?_, ?_, ?_⟩
    · rw [hchain']
      have := hQ.1
      rw [hchainCons] at this
      exact (List.nodup_cons.mp this).2
    · intro i hi
      rw [hchain'] at hi
      have hiOld : i ∈ chain s s.next_allocation (s.objectsCap - s.num_objects) := by
        rw [hchainCons]
        exact List.mem_cons_of_mem _ hi
      obtain ⟨b, hb, hbT⟩ := hQ.2.1 _ hiOld
      have hine : i ≠ s.next_allocation := fun hc => hheadNotMem (hc ▸ hi)
      exact ⟨b, by rw [hother _ hine]; exact hb, hbT⟩
    · rw [hchain', eLast]
      have hold := hQ.2.2
      rw [hchainCons] at hold
      rcases hz : (chain s (nextAt s s.next_allocation)
          (s.objectsCap - s.num_objects - 1)).getLast? with _ | z
      · exact absurd (List.getLast?_eq_none.mp hz) hrestNe
      · rw [List.getLast?_cons, hz] at hold
        simpa using hold

/-! ### Remove preserves the invariant -/

/-- Iterating the free-queue link k times. -/
def follow (s : PackedFreelist T) : Nat → Nat → Nat
  | x, 0 => x
  | x, k + 1 => follow s (nextAt s x) k

theorem follow_succ (s : PackedFreelist T) :
    ∀ k x, follow s x (k + 1) = nextAt s (follow s x k) := by
  intro k
  induction k with
  | zero => intro x; rfl
  | succ k ih =>
    intro x
    show follow s (nextAt s x) (k + 1) = nextAt s (follow s (nextAt s x) k)
    exact ih (nextAt s x)

theorem chain_snoc (s : PackedFreelist T) :
    ∀ k x, chain s x (k + 1) = chain s x k ++ [follow s x k] := by
  intro k
  induction k with
  | zero => intro x; rfl
  | succ k ih =>
    intro x
    show x :: chain s (nextAt s x) (k + 1) = (x :: chain s (nextAt s x) k) ++ [follow s x (k + 1)]
    rw [ih (nextAt s x)]
    rfl

theorem chain_getLast (s : PackedFreelist T) (k x : Nat) :
    (chain s x (k + 1)).getLast? = some (follow s x k) := by
  rw [chain_snoc, List.getLast?_concat]

/-- If two states have the same links everywhere except at t, chains that only
visit t in their last position coincide. -/
theorem chain_agree {s s' : PackedFreelist T} {t : Nat}
    (hagree : ∀ x, x ≠ t → nextAt s' x = nextAt s x) :
    ∀ k x, (∀ q y, q + 1 < k → (chain s x k)[q]? = some y → y ≠ t) →
      chain s' x k = chain s x k := by
  intro k
  induction k with
  | zero => intro x _; rfl
  | succ k ih =>
    intro x hq
    show x :: chain s' (nextAt s' x) k = x :: chain s (nextAt s x) k
    have hcons : chain s x (k + 1) = x :: chain s (nextAt s x) k := rfl
    rcases Nat.eq_zero_or_pos k with hk | hk
    · subst hk
      rfl
    · have hx : x ≠ t := hq 0 x (by omega) (by rw [hcons, List.getElem?_cons_zero])
      rw [hagree x hx]
      apply congrArg
      apply ih
      intro q y hq1 hget
      refine hq (q + 1) y (by omega) ?_
      rw [hcons, List.getElem?_cons_succ]
      exact hget

theorem follow_agree {s s' : PackedFreelist T} {t : Nat}
    (hagree : ∀ x, x ≠ t → nextAt s' x = nextAt s x) :
    ∀ k x, (∀ q y, q < k → (chain s x (k + 1))[q]? = some y → y ≠ t) →
      follow s' x k = follow s x k := by
  intro k
  induction k with
  | zero => intro x _; rfl
  | succ k ih =>
    intro x hq
    have hcons : chain s x (k + 1 + 1) = x :: chain s (nextAt s x) (k + 1) := rfl
    have hx : x ≠ t := hq 0 x (by omega) (by rw [hcons, List.getElem?_cons_zero])
    show follow s' (nextAt s' x) k = follow s (nextAt s x) k
    rw [hagree x hx]
    apply ih
    intro q y hqk hget
    refine hq (q + 1) y (by omega) ?_
    rw [hcons, List.getElem?_cons_succ]
    exact hget

/-- The no-relocation branch of remove's compaction step. -/
theorem removeRelocate_eq_last {T : Type} {s : PackedFreelist T} {al : Allocation}
    (h : al.object_index = s.num_objects - 1) : removeRelocate s al = some s := by
  unfold removeRelocate
  rw [if_pos h]

/-- The relocation branch of remove's compaction step, with all the unchecked
indexing in bounds. -/
theorem removeRelocate_eq_swap {T : Type} {s : PackedFreelist T} {al : Allocation}
    {u w : T} {midId : Nat} {mal : Allocation}
    (hne : ¬ al.object_index = s.num_objects - 1)
    (hu : s.objects[s.num_objects - 1]? = some u)
    (hw : s.objects[al.object_index]? = some w)
    (hmid : s.object_alloc_ids[s.num_objects - 1]? = some midId)
    (hoaiB : al.object_index < s.object_alloc_ids.length)
    (hmal : s.allocations[midId % 0x10000]? = some mal) :
    removeRelocate s al = some
      { objects := (s.objects.set (s.num_objects - 1) w).set al.object_index u,
        objectsCap := s.objectsCap,
        num_objects := s.num_objects,
        object_alloc_ids := s.object_alloc_ids.set al.object_index midId,
        allocations := s.allocations.set (midId % 0x10000)
          { mal with object_index := al.object_index },
        last_allocation := s.last_allocation,
        next_allocation := s.next_allocation } := by
  unfold removeRelocate
  rw [if_neg hne, listSwap_some hu hw, hmid]
  dsimp only
  rw [if_pos hoaiB, hmal]

/-- Forward description of remove's finishing step. -/
theorem removeFinish_eq {T : Type} {s1 : PackedFreelist T} {slot lidx : Nat}
    {tb a2 : Allocation}
    (ht : s1.allocations[s1.last_allocation]? = some tb)
    (ha2 : (s1.allocations.set s1.last_allocation
      { tb with next_allocation := lidx })[slot]? = some a2) :
    removeFinish s1 slot lidx = some
      { objects := s1.objects.dropLast,
        objectsCap := s1.objectsCap,
        num_objects := s1.num_objects - 1,
        object_alloc_ids := s1.object_alloc_ids,
        allocations := (s1.allocations.set s1.last_allocation
          { tb with next_allocation := lidx }).set slot
          { a2 with object_index := TOMBSTONE },
        last_allocation := lidx,
        next_allocation := s1.next_allocation } := by
  unfold removeFinish
  dsimp only
  rw [ht]
  dsimp only
  rw [ha2]

/-- remove reduces to its two stages once the early panics are ruled out. -/
theorem remove_eq_stages {T : Type} {s : PackedFreelist T} {id : Nat} {al : Allocation}
    {v : T} (hg : s.allocations[id % 0x10000]? = some al)
    (ho : s.objects[al.object_index]? = some v)
    (hnum : ¬ s.num_objects = 0) :
    remove s id = (removeRelocate s al).bind fun s1 =>
      removeFinish s1 (id % 0x10000) (al.allocation_id % 0x10000) := by
  unfold remove
  rw [hg]
  dsimp only
  rw [ho]
  dsimp only
  rw [if_neg hnum]

theorem remove_none_slot {T : Type} {s : PackedFreelist T} {id : Nat}
    (hg : s.allocations[id % 0x10000]? = none) : remove s id = none := by
  unfold remove
  rw [hg]

theorem remove_none_obj {T : Type} {s : PackedFreelist T} {id : Nat} {al : Allocation}
    (hg : s.allocations[id % 0x10000]? = some al)
    (ho : s.objects[al.object_index]? = none) : remove s id = none := by
  unfold remove
  rw [hg]
  dsimp only
  rw [ho]

/-- Description of the intermediate state after remove's compaction stage. -/
def RemMid (s : PackedFreelist T) (al : Allocation) (s1 : PackedFreelist T) : Prop :=
  (al.object_index = s.num_objects - 1 ∧ s1 = s) ∨
  (al.object_index ≠ s.num_objects - 1 ∧
    ∃ (u w : T) (midId : Nat) (mal : Allocation),
      s.objects[s.num_objects - 1]? = some u ∧
      s.objects[al.object_index]? = some w ∧
      s.object_alloc_ids[s.num_objects - 1]? = some midId ∧
      s.allocations[midId % 0x10000]? = some mal ∧
      s1 = { objects := (s.objects.set (s.num_objects - 1) w).set al.object_index u,
             objectsCap := s.objectsCap,
             num_objects := s.num_objects,
             object_alloc_ids := s.object_alloc_ids.set al.object_index midId,
             allocations := s.allocations.set (midId % 0x10000)
               { mal with object_index := al.object_index },
             last_allocation := s.last_allocation,
             next_allocation := s.next_allocation })

/-- Full description of the state produced by a successful remove of the live
record al sitting at slot. -/
def RemDesc (s : PackedFreelist T) (slot : Nat) (al : Allocation)
    (s' : PackedFreelist T) : Prop :=
  ∃ (s1 : PackedFreelist T) (tb a2 : Allocation),
    RemMid s al s1 ∧
    s1.allocations[s1.last_allocation]? = some tb ∧
    (s1.allocations.set s1.last_allocation { tb with next_allocation := slot })[slot]? = some a2 ∧
    s' = { objects := s1.objects.dropLast,
           objectsCap := s1.objectsCap,
           num_objects := s1.num_objects - 1,
           object_alloc_ids := s1.object_alloc_ids,
           allocations := (s1.allocations.set s1.last_allocation
             { tb with next_allocation := slot }).set slot
             { a2 with object_index := TOMBSTONE },
           last_allocation := slot,
           next_allocation := s1.next_allocation }

/-- Removing an id whose slot holds a live record always succeeds (in an
invariant-satisfying state) and the result is described by RemDesc.  Note the
generation bits of the id play no role. -/
theorem remove_eq_live {T : Type} {s : PackedFreelist T} {id : Nat} {al : Allocation}
    (hInv : Inv s) (hg : s.allocations[id % 0x10000]? = some al)
    (halive : al.object_index ≠ TOMBSTONE) :
    ∃ s', remove s id = some s' ∧ RemDesc s (id % 0x10000) al s' := by
  have hp : al.object_index < s.num_objects := (hInv.hLive _ _ hg halive).1
  have hlenO : al.object_index < s.objects.length := lt_of_lt_of_le hp hInv.hNumLe
  have ho : s.objects[al.object_index]? = some s.objects[al.object_index] :=
    List.getElem?_eq_getElem hlenO
  have hnum0 : ¬ s.num_objects = 0 := by omega
  have hlidx : al.allocation_id % 0x10000 = id % 0x10000 := hInv.hSlot _ _ hg
  have hslotLt : id % 0x10000 < s.allocations.length := (List.getElem?_eq_some.mp hg).1
  have hcap0 : s.objectsCap ≠ 0 := by
    have := hInv.hCapA
    omega
  -- stage 1
  have hstage1 : ∃ s1, removeRelocate s al = some s1 ∧ RemMid s al s1 ∧
      s1.allocations.length = s.allocations.length ∧
      s1.last_allocation = s.last_allocation := by
    by_cases hpl : al.object_index = s.num_objects - 1
    · exact ⟨s, removeRelocate_eq_last hpl, Or.inl ⟨hpl, rfl⟩, rfl, rfl⟩
    · have hlast : s.num_objects - 1 < s.objects.length := by
        have := hInv.hNumLe
        omega
      have hu : s.objects[s.num_objects - 1]? = some s.objects[s.num_objects - 1] :=
        List.getElem?_eq_getElem hlast
      obtain ⟨midId, mal, hmidId, hmal, hq3, hq4⟩ := hInv.hPos (s.num_objects - 1) (by omega)
      have hoaiB : al.object_index < s.object_alloc_ids.length := by
        have h1 := hInv.hCapO
        have h2 := hInv.hObjLe
        omega
      refine ⟨_, removeRelocate_eq_swap hpl hu ho hmidId hoaiB hmal,
        Or.inr ⟨hpl, _, _, midId, mal, hu, ho, hmidId, hmal, rfl⟩, ?_, rfl⟩
      simp
  obtain ⟨s1, hrel, hmid, hlenA1, hlast1⟩ := hstage1
  -- stage 2
  have htlt : s1.last_allocation < s1.allocations.length := by
    rw [hlenA1, hlast1, hInv.hCapA]
    exact hInv.hLast hcap0
  have htb : s1.allocations[s1.last_allocation]? = some s1.allocations[s1.last_allocation] :=
    List.getElem?_eq_getElem htlt
  have hb2 : id % 0x10000 < (s1.allocations.set s1.last_allocation
      { s1.allocations[s1.last_allocation] with next_allocation := id % 0x10000 }).length := by
    rw [List.length_set, hlenA1]
    exact hslotLt
  have ha2 := List.getElem?_eq_getElem hb2
  refine ⟨_, ?_, s1, _, _, hmid, htb, ha2, rfl⟩
  rw [remove_eq_stages hg ho hnum0, hrel]
  show removeFinish s1 (id % 0x10000) (al.allocation_id % 0x10000) = _
  rw [hlidx]
  exact removeFinish_eq htb ha2

/-- Facts holding of the intermediate state after the compaction stage,
uniform over the two RemMid branches. -/
structure MidFacts (s : PackedFreelist T) (slot : Nat) (al : Allocation)
    (s1 : PackedFreelist T) : Prop where
  mCap : s1.objectsCap = s.objectsCap
  mNum : s1.num_objects = s.num_objects
  mObjLen : s1.objects.length = s.objects.length
  mOaiLen : s1.object_alloc_ids.length = s.object_alloc_ids.length
  mALen : s1.allocations.length = s.allocations.length
  mLast : s1.last_allocation = s.last_allocation
  mNext : s1.next_allocation = s.next_allocation
  mIds : ∀ (i : Nat) (b : Allocation), s1.allocations[i]? = some b →
      b.next_allocation < s.objectsCap ∧ b.allocation_id % 0x10000 = i ∧
      b.allocation_id < U32_MOD
  mLive : ∀ (i : Nat) (b : Allocation), i ≠ slot → s1.allocations[i]? = some b →
      b.object_index ≠ TOMBSTONE →
      b.object_index < s.num_objects - 1 ∧
      s1.object_alloc_ids[b.object_index]? = some b.allocation_id
  mPos : ∀ q, q < s.num_objects - 1 → ∃ (id0 : Nat) (b : Allocation),
      s1.object_alloc_ids[q]? = some id0 ∧ s1.allocations[id0 % 0x10000]? = some b ∧
      b.allocation_id = id0 ∧ b.object_index = q ∧ id0 % 0x10000 ≠ slot
  mFree : ∀ i, i ≠ slot →
      ((allocAt s1 i).object_index = TOMBSTONE ↔ (allocAt s i).object_index = TOMBSTONE)
  mNextAt : ∀ i, nextAt s1 i = nextAt s i

theorem midFacts_of_remMid {T : Type} {s : PackedFreelist T} {slot : Nat}
    {al : Allocation} {s1 : PackedFreelist T}
    (hInv : Inv s) (hg : s.allocations[slot]? = some al)
    (halive : al.object_index ≠ TOMBSTONE) (hmid : RemMid s al s1) :
    MidFacts s slot al s1 := by
  obtain ⟨hp, hoeP⟩ := hInv.hLive slot al hg halive
  have hslotId := hInv.hSlot slot al hg
  rcases hmid with ⟨hpl, rfl⟩ | ⟨hpl, u, w, midId, mal, hu, hw, hmidId, hmal, rfl⟩
  · -- no-relocation branch: s1 = s
    refine ⟨rfl, rfl, rfl, rfl, rfl, rfl, rfl, ?_, ?_, ?_, ?_, ?_⟩
    · intro i b hb
      exact ⟨hInv.hNextF i b hb, hInv.hSlot i b hb, hInv.hIdLt i b hb⟩
    · intro i b hne hb hbT
      obtain ⟨hlt, hoe⟩ := hInv.hLive i b hb hbT
      refine ⟨?_, hoe⟩
      by_contra hc
      rw [show b.object_index = al.object_index by omega] at hoe
      rw [hoeP] at hoe
      injection hoe with hoe
      have h1 := hInv.hSlot i b hb
      rw [← hoe, hslotId] at h1
      exact hne h1.symm
    · intro q hq
      obtain ⟨id0, b, h1, h2, h3, h4⟩ := hInv.hPos q (by omega)
      refine ⟨id0, b, h1, h2, h3, h4, ?_⟩
      intro hc
      rw [hc, hg] at h2
      injection h2 with h2
      rw [← h2] at h4
      rw [hpl] at h4
      omega
    · intro i _
      exact Iff.rfl
    · intro i
      rfl
  · -- relocation branch
    obtain ⟨id0, a0, hq1, hq2, hq3, hq4⟩ := hInv.hPos (s.num_objects - 1) (by omega)
    rw [hmidId] at hq1
    injection hq1 with hq1
    subst hq1
    rw [hmal] at hq2
    injection hq2 with hq2
    subst hq2
    -- now hq3 : mal.allocation_id = midId, hq4 : mal.object_index = num - 1
    have hjne : midId % 0x10000 ≠ slot := by
      intro hc
      rw [hc, hg] at hmal
      injection hmal with he
      rw [← he] at hq4
      exact hpl hq4
    have hjlt : midId % 0x10000 < s.allocations.length := (List.getElem?_eq_some.mp hmal).1
    have hplt : al.object_index < s.object_alloc_ids.length := by
      have h1 := hInv.hCapO
      have h2 := hInv.hObjLe
      have h3 := hInv.hNumLe
      omega
    refine ⟨rfl, rfl, by simp, by simp, by simp, rfl, rfl, ?_, ?_, ?_, ?_, ?_⟩
    · intro i b hb
      dsimp only at hb
      by_cases hij : i = midId % 0x10000
      · subst hij
        rw [getE_set_self _ hjlt] at hb
        injection hb with hb
        subst hb
        refine ⟨?_, ?_, ?_⟩
        · show mal.next_allocation < s.objectsCap
          exact hInv.hNextF _ _ hmal
        · show mal.allocation_id % 0x10000 = midId % 0x10000
          exact hInv.hSlot _ _ hmal
        · show mal.allocation_id < U32_MOD
          exact hInv.hIdLt _ _ hmal
      · rw [getE_set_ne _ (fun hc => hij hc.symm)] at hb
        exact ⟨hInv.hNextF _ _ hb, hInv.hSlot _ _ hb, hInv.hIdLt _ _ hb⟩
    · intro i b hne hb hbT
      dsimp only at hb ⊢
      by_cases hij : i = midId % 0x10000
      · subst hij
        rw [getE_set_self _ hjlt] at hb
        injection hb with hb
        subst hb
        refine ⟨by show al.object_index < s.num_objects - 1; omega, ?_⟩
        show (s.object_alloc_ids.set al.object_index midId)[al.object_index]? =
          some mal.allocation_id
        rw [getE_set_self _ hplt, hq3]
      · rw [getE_set_ne _ (fun hc => hij hc.symm)] at hb
        obtain ⟨hlt, hoe⟩ := hInv.hLive i b hb hbT
        have hqlast : b.object_index ≠ s.num_objects - 1 := by
          intro hc
          rw [hc, hmidId] at hoe
          injection hoe with hoe
          have hsl := hInv.hSlot i b hb
          rw [← hoe] at hsl
          exact hij hsl.symm
        have hqp : b.object_index ≠ al.object_index := by
          intro hc
          rw [hc, hoeP] at hoe
          injection hoe with hoe
          have hsl := hInv.hSlot i b hb
          rw [← hoe, hslotId] at hsl
          exact hne hsl.symm
        refine ⟨by omega, ?_⟩
        rw [getE_set_ne _ (fun hc => hqp hc.symm), hoe]
    · intro q hq
      dsimp only
      by_cases hqp : q = al.object_index
      · refine ⟨midId, { mal with object_index := al.object_index }, ?_, ?_, hq3, hqp.symm, hjne⟩
        · rw [hqp]
          rw [getE_set_self _ hplt]
        · rw [getE_set_self _ hjlt]
      · obtain ⟨id0, b, h1, h2, h3, h4⟩ := hInv.hPos q (by omega)
        have hj0 : id0 % 0x10000 ≠ midId % 0x10000 := by
          intro hc
          rw [hc, hmal] at h2
          injection h2 with h2
          rw [← h2] at h4
          rw [hq4] at h4
          omega
        have hs0 : id0 % 0x10000 ≠ slot := by
          intro hc
          rw [hc, hg] at h2
          injection h2 with h2
          rw [← h2] at h4
          exact hqp h4.symm
        refine ⟨id0, b, ?_, ?_, h3, h4, hs0⟩
        · rw [getE_set_ne _ (fun hc => hqp hc.symm), h1]
        · rw [getE_set_ne _ (fun hc => hj0 hc.symm), h2]
    · intro i hne
      by_cases hij : i = midId % 0x10000
      · subst hij
        rw [allocAt_eq (show _ = some { mal with object_index := al.object_index } from by
          dsimp only
          exact getE_set_self _ hjlt)]
        rw [allocAt_eq hmal]
        have hcap := hInv.hCapLt
        have h2 := hInv.hNumLe
        have h3 := hInv.hObjLe
        constructor
        · intro hFix
          exact absurd hFix halive
        · intro hMal
          rw [hq4] at hMal
          exfalso
          unfold TOMBSTONE at hMal hcap
          omega
      · rw [allocAt_congr (show _ from by
          dsimp only
          exact getE_set_ne _ (fun hc => hij hc.symm))]
    · intro i
      unfold nextAt
      by_cases hij : i = midId % 0x10000
      · subst hij
        rw [allocAt_eq (show _ = some { mal with object_index := al.object_index } from by
          dsimp only
          exact getE_set_self _ hjlt)]
        rw [allocAt_eq hmal]
      · rw [allocAt_congr (show _ from by
          dsimp only
          exact getE_set_ne _ (fun hc => hij hc.symm))]

theorem inv_finish {T : Type} {s : PackedFreelist T} {slot : Nat} {al : Allocation}
    {s1 : PackedFreelist T} {tb a2 : Allocation} {s' : PackedFreelist T}
    (hInv : Inv s) (hg : s.allocations[slot]? = some al)
    (halive : al.object_index ≠ TOMBSTONE)
    (hM : MidFacts s slot al s1)
    (htb : s1.allocations[s1.last_allocation]? = some tb)
    (ha2 : (s1.allocations.set s1.last_allocation
      { tb with next_allocation := slot })[slot]? = some a2)
    (hs' : s' = { objects := s1.objects.dropLast,
                  objectsCap := s1.objectsCap,
                  num_objects := s1.num_objects - 1,
                  object_alloc_ids := s1.object_alloc_ids,
                  allocations := (s1.allocations.set s1.last_allocation
                    { tb with next_allocation := slot }).set slot
                    { a2 with object_index := TOMBSTONE },
                  last_allocation := slot,
                  next_allocation := s1.next_allocation }) : Inv s' := by
  have hp : al.object_index < s.num_objects := (hInv.hLive slot al hg halive).1
  have hslotLt : slot < s.allocations.length := (List.getElem?_eq_some.mp hg).1
  have htLt : s1.last_allocation < s1.allocations.length := (List.getElem?_eq_some.mp htb).1
  have hcap0 : s.objectsCap ≠ 0 := by
    have := hInv.hCapA
    omega
  have hslotLt1 : slot < s1.allocations.length := by
    rw [hM.mALen]
    exact hslotLt
  have hA'slot : s'.allocations[slot]? = some { a2 with object_index := TOMBSTONE } := by
    rw [hs']
    exact getE_set_self _ (by rw [List.length_set]; exact hslotLt1)
  have hA'ne : ∀ i : Nat, i ≠ slot → i ≠ s1.last_allocation →
      s'.allocations[i]? = s1.allocations[i]? := by
    intro i h1 h2
    rw [hs']
    show ((s1.allocations.set _ _).set slot _)[i]? = _
    rw [getE_set_ne _ (fun hc => h1 hc.symm), getE_set_ne _ (fun hc => h2 hc.symm)]
  have hA't : s1.last_allocation ≠ slot →
      s'.allocations[s1.last_allocation]? = some { tb with next_allocation := slot } := by
    intro hts
    rw [hs']
    show ((s1.allocations.set _ _).set slot _)[s1.last_allocation]? = _
    rw [getE_set_ne _ (fun hc => hts hc.symm), getE_set_self _ htLt]
  have htbIds := hM.mIds s1.last_allocation tb htb
  have ha2Facts : a2.allocation_id % 0x10000 = slot ∧ a2.allocation_id < U32_MOD ∧
      a2.next_allocation < s.objectsCap := by
    by_cases hts : slot = s1.last_allocation
    · rw [hts] at ha2
      rw [getE_set_self _ htLt] at ha2
      injection ha2 with he
      rw [← he]
      refine ⟨?_, ?_, ?_⟩
      · show tb.allocation_id % 0x10000 = slot
        rw [htbIds.2.1, hts]
      · exact htbIds.2.2
      · show s1.last_allocation < s.objectsCap
        rw [← hts, ← hInv.hCapA]
        exact hslotLt
    · rw [getE_set_ne _ (fun hc => hts hc.symm)] at ha2
      obtain ⟨h1, h2, h3⟩ := hM.mIds slot a2 ha2
      exact ⟨h2, h3, h1⟩
  refine ⟨?_, ?_, ?_, ?_, ?_, ?_, ?_, ?_, ?_, ?_, ?_, ?_, ?_⟩
  · rw [hs']
    show ((s1.allocations.set _ _).set _ _).length = s1.objectsCap
    rw [List.length_set, List.length_set, hM.mALen, hM.mCap, hInv.hCapA]
  · rw [hs']
    show s1.object_alloc_ids.length = s1.objectsCap
    rw [hM.mOaiLen, hM.mCap, hInv.hCapO]
  · rw [hs']
    show s1.objectsCap < TOMBSTONE
    rw [hM.mCap]
    exact hInv.hCapLt
  · rw [hs']
    show s1.num_objects - 1 ≤ s1.objects.dropLast.length
    rw [List.length_dropLast, hM.mObjLen, hM.mNum]
    have := hInv.hNumLe
    omega
  · rw [hs']
    show s1.objects.dropLast.length ≤ s1.objectsCap
    rw [List.length_dropLast, hM.mObjLen, hM.mCap]
    have := hInv.hObjLe
    omega
  · rw [hs']
    intro _
    show slot < s1.objectsCap
    rw [hM.mCap, ← hInv.hCapA]
    exact hslotLt
  · rw [hs']
    intro _
    show s1.next_allocation < s1.objectsCap
    rw [hM.mNext, hM.mCap]
    exact hInv.hNext hcap0
  · intro i b hb
    rw [hs']
    show b.next_allocation < s1.objectsCap
    rw [hM.mCap]
    by_cases h1 : i = slot
    · subst h1
      rw [hA'slot] at hb
      injection hb with hb
      rw [← hb]
      show a2.next_allocation < s.objectsCap
      exact ha2Facts.2.2
    · by_cases h2 : i = s1.last_allocation
      · subst h2
        rw [hA't (fun hc => h1 hc)] at hb
        injection hb with hb
        rw [← hb]
        show slot < s.objectsCap
        rw [← hInv.hCapA]
        exact hslotLt
      · rw [hA'ne i h1 h2] at hb
        exact (hM.mIds i b hb).1
  · intro i b hb
    by_cases h1 : i = slot
    · subst h1
      rw [hA'slot] at hb
      injection hb with hb
      rw [← hb]
      show a2.allocation_id % 0x10000 = i
      exact ha2Facts.1
    · by_cases h2 : i = s1.last_allocation
      · subst h2
        rw [hA't (fun hc => h1 hc)] at hb
        injection hb with hb
        rw [← hb]
        show tb.allocation_id % 0x10000 = s1.last_allocation
        exact htbIds.2.1
      · rw [hA'ne i h1 h2] at hb
        exact (hM.mIds i b hb).2.1
  · intro i b hb
    by_cases h1 : i = slot
    · subst h1
      rw [hA'slot] at hb
      injection hb with hb
      rw [← hb]
      show a2.allocation_id < U32_MOD
      exact ha2Facts.2.1
    · by_cases h2 : i = s1.last_allocation
      · subst h2
        rw [hA't (fun hc => h1 hc)] at hb
        injection hb with hb
        rw [← hb]
        show tb.allocation_id < U32_MOD
        exact htbIds.2.2
      · rw [hA'ne i h1 h2] at hb
        exact (hM.mIds i b hb).2.2
  · intro i b hb hbT
    by_cases h1 : i = slot
    · subst h1
      rw [hA'slot] at hb
      injection hb with hb
      rw [← hb] at hbT
      exact absurd rfl hbT
    · by_cases h2 : i = s1.last_allocation
      · subst h2
        rw [hA't (fun hc => h1 hc)] at hb
        injection hb with hb
        rw [← hb] at hbT ⊢
        have htbT : tb.object_index ≠ TOMBSTONE := hbT
        obtain ⟨hlt, hoe⟩ := hM.mLive s1.last_allocation tb h1 htb htbT
        rw [hs']
        show tb.object_index < s1.num_objects - 1 ∧
          s1.object_alloc_ids[tb.object_index]? = some tb.allocation_id
        rw [hM.mNum]
        exact ⟨hlt, hoe⟩
      · rw [hA'ne i h1 h2] at hb
        obtain ⟨hlt, hoe⟩ := hM.mLive i b h1 hb hbT
        rw [hs']
        show b.object_index < s1.num_objects - 1 ∧
          s1.object_alloc_ids[b.object_index]? = some b.allocation_id
        rw [hM.mNum]
        exact ⟨hlt, hoe⟩
  · intro q hq
    rw [hs'] at hq
    have hq0 : q < s1.num_objects - 1 := hq
    have hq' : q < s.num_objects - 1 := by
      have := hM.mNum
      omega
    obtain ⟨id0, b, h1, h2, h3, h4, h5⟩ := hM.mPos q hq'
    by_cases hj0 : id0 % 0x10000 = s1.last_allocation
    · have hbtb : b = tb := by
        rw [hj0] at h2
        rw [htb] at h2
        injection h2 with h2
        exact h2.symm
      refine ⟨id0, { tb with next_allocation := slot }, ?_, ?_, ?_, ?_⟩
      · rw [hs']
        exact h1
      · rw [hs', hj0]
        show ((s1.allocations.set _ _).set slot _)[s1.last_allocation]? = _
        rw [getE_set_ne _ (fun hc => h5 (hj0 ▸ hc.symm)), getE_set_self _ htLt]
      · show tb.allocation_id = id0
        rw [← hbtb]
        exact h3
      · show tb.object_index = q
        rw [← hbtb]
        exact h4
    · refine ⟨id0, b, ?_, ?_, h3, h4⟩
      · rw [hs']
        exact h1
      · rw [hA'ne _ h5 hj0]
        exact h2
  · intro hlt
    rw [hs'] at hlt
    have hlt2 : s1.num_objects - 1 < s1.objects.dropLast.length := hlt
    rw [List.length_dropLast] at hlt2
    have hnumlen : s.num_objects < s.objects.length := by
      have h1 := hM.mNum
      have h2 := hM.mObjLen
      omega
    have hQ := hInv.hQueue hnumlen
    have hnum1 : 1 ≤ s.num_objects := by omega
    have hf1 : 1 ≤ s.objectsCap - s.num_objects := by
      have := hInv.hObjLe
      omega
    have hclen := chain_length s (s.objectsCap - s.num_objects) s.next_allocation
    have hslotNotc : slot ∉ chain s s.next_allocation (s.objectsCap - s.num_objects) := by
      intro hmem
      obtain ⟨b0, hb0, hb0T⟩ := hQ.2.1 slot hmem
      rw [hg] at hb0
      injection hb0 with hb0
      rw [hb0] at halive
      exact halive hb0T
    have htlast : s1.last_allocation = s.last_allocation := hM.mLast
    have hlastIdx : (chain s s.next_allocation
        (s.objectsCap - s.num_objects))[s.objectsCap - s.num_objects - 1]? =
        some s.last_allocation := by
      have := hQ.2.2
      rw [List.getLast?_eq_getElem?, hclen] at this
      exact this
    have honly : ∀ q y, q + 1 < s.objectsCap - s.num_objects →
        (chain s s.next_allocation (s.objectsCap - s.num_objects))[q]? = some y →
        y ≠ s.last_allocation := by
      intro q y hq1 hgety hc
      subst hc
      obtain ⟨hqb, hqe⟩ := List.getElem?_eq_some.mp hgety
      obtain ⟨hlb, hle⟩ := List.getElem?_eq_some.mp hlastIdx
      have := (List.Nodup.getElem_inj_iff hQ.1).mp (hqe.trans hle.symm)
      omega
    have htfree : freeAt s s.last_allocation := by
      apply hQ.2.1
      exact List.mem_of_mem_getLast? hQ.2.2
    have htsne : s.last_allocation ≠ slot := by
      intro hc
      obtain ⟨b0, hb0, hb0T⟩ := htfree
      rw [hc, hg] at hb0
      injection hb0 with hb0
      rw [hb0] at halive
      exact halive hb0T
    have hagree : ∀ x, x ≠ s.last_allocation → nextAt s' x = nextAt s x := by
      intro x hx
      by_cases hxs : x = slot
      · rw [hxs]
        have ha2s1 : s1.allocations[slot]? = some a2 := by
          have h0 := ha2
          rw [getE_set_ne _ (fun hc => hx (hxs.trans (hc.symm.trans htlast)))] at h0
          exact h0
        rw [← hM.mNextAt slot]
        unfold nextAt
        rw [allocAt_eq hA'slot, allocAt_eq ha2s1]
      · have := hA'ne x hxs (by rw [htlast]; exact hx)
        unfold nextAt
        rw [allocAt_congr this]
        have := hM.mNextAt x
        unfold nextAt at this
        rw [this]
    have hheadEq : s'.next_allocation = s.next_allocation := by
      rw [hs']
      show s1.next_allocation = s.next_allocation
      exact hM.mNext
    have hchainEq : chain s' s.next_allocation (s.objectsCap - s.num_objects) =
        chain s s.next_allocation (s.objectsCap - s.num_objects) := by
      apply chain_agree hagree
      exact honly
    have hfolEq : follow s' s.next_allocation (s.objectsCap - s.num_objects - 1) =
        s.last_allocation := by
      have h1 : follow s' s.next_allocation (s.objectsCap - s.num_objects - 1) =
          follow s s.next_allocation (s.objectsCap - s.num_objects - 1) := by
        apply follow_agree hagree
        intro q y hqk hget
        refine honly q y ?_ ?_
        · omega
        · rw [show s.objectsCap - s.num_objects - 1 + 1 = s.objectsCap - s.num_objects
            by omega] at hget
          exact hget
      have h2 := chain_getLast s (s.objectsCap - s.num_objects - 1) s.next_allocation
      rw [show s.objectsCap - s.num_objects - 1 + 1 = s.objectsCap - s.num_objects
        by omega] at h2
      rw [hQ.2.2] at h2
      injection h2 with h2
      rw [h1, ← h2]
    have hnextT : nextAt s' s.last_allocation = slot := by
      unfold nextAt
      have hrec := hA't (by rw [htlast]; exact htsne)
      rw [← htlast, allocAt_eq hrec]
    have hnewChain : chain s' s.next_allocation (s.objectsCap - s.num_objects + 1) =
        chain s s.next_allocation (s.objectsCap - s.num_objects) ++ [slot] := by
      rw [chain_snoc]
      rw [hchainEq]
      congr 1
      rw [show s.objectsCap - s.num_objects = (s.objectsCap - s.num_objects - 1) + 1
        by omega]
      rw [follow_succ, hfolEq, hnextT]
    have harith : s'.objectsCap - s'.num_objects = s.objectsCap - s.num_objects + 1 := by
      rw [hs']
      show s1.objectsCap - (s1.num_objects - 1) = s.objectsCap - s.num_objects + 1
      rw [hM.mCap, hM.mNum]
      have := hInv.hObjLe
      omega
    refine ⟨?_, ?_, ?_⟩
    · rw [harith, hheadEq, hnewChain]
      rw [List.nodup_append]
      refine ⟨hQ.1, by simp, ?_⟩
      rw [List.disjoint_singleton]
      exact hslotNotc
    · intro i hi
      rw [harith, hheadEq, hnewChain, List.mem_append] at hi
      rcases hi with hi | hi
      · have hine : i ≠ slot := fun hc => hslotNotc (hc ▸ hi)
        obtain ⟨b0, hb0, hb0T⟩ := hQ.2.1 i hi
        by_cases hit : i = s.last_allocation
        · subst hit
          have hrecT : s'.allocations[s.last_allocation]? =
              some { tb with next_allocation := slot } := by
            rw [← htlast]
            exact hA't (by rw [htlast]; exact htsne)
          refine ⟨{ tb with next_allocation := slot }, hrecT, ?_⟩
          show tb.object_index = TOMBSTONE
          have hfr := hM.mFree s.last_allocation (htsne)
          rw [← htlast] at hfr
          rw [allocAt_eq htb] at hfr
          apply hfr.mpr
          rw [htlast] at hfr ⊢
          rw [allocAt_eq hb0]
          exact hb0T
        · have hgetS1 : s'.allocations[i]? = s1.allocations[i]? :=
            hA'ne i hine (by rw [htlast]; exact hit)
          have hiLt1 : i < s1.allocations.length := by
            rw [hM.mALen]
            exact (List.getElem?_eq_some.mp hb0).1
          have hs1get : s1.allocations[i]? = some s1.allocations[i] :=
            List.getElem?_eq_getElem hiLt1
          refine ⟨s1.allocations[i], by rw [hgetS1]; exact hs1get, ?_⟩
          have hfr := hM.mFree i hine
          rw [allocAt_eq hs1get, allocAt_eq hb0] at hfr
          exact hfr.mpr hb0T
      · rw [List.mem_singleton] at hi
        subst hi
        exact ⟨{ a2 with object_index := TOMBSTONE }, hA'slot, rfl⟩
    · rw [harith, hheadEq, hnewChain, List.getLast?_concat, hs']

theorem remove_some_inv {T : Type} {s : PackedFreelist T} {id : Nat} {s' : PackedFreelist T}
    (h : remove s id = some s') :
    ∃ (al : Allocation) (v : T), s.allocations[id % 0x10000]? = some al ∧
      s.objects[al.object_index]? = some v := by
  rcases hg : s.allocations[id % 0x10000]? with _ | al
  · rw [remove_none_slot hg] at h
    exact absurd h (by simp)
  rcases ho : s.objects[al.object_index]? with _ | v
  · rw [remove_none_obj hg ho] at h
    exact absurd h (by simp)
  exact ⟨al, v, rfl, ho⟩

theorem inv_remove {T : Type} {s : PackedFreelist T} {id : Nat} {s' : PackedFreelist T}
    (hInv : Inv s) (h : remove s id = some s') : Inv s' := by
  obtain ⟨al, v, hg, ho⟩ := remove_some_inv h
  have hlen : al.object_index < s.objects.length := (List.getElem?_eq_some.mp ho).1
  have halive : al.object_index ≠ TOMBSTONE := by
    have h1 := hInv.hObjLe
    have h2 := hInv.hCapLt
    unfold TOMBSTONE at h2 ⊢
    omega
  obtain ⟨s'', heq, hdesc⟩ := remove_eq_live hInv hg halive
  rw [heq] at h
  injection h with h
  subst h
  obtain ⟨s1, tb, a2, hmid, htb, ha2, hs''⟩ := hdesc
  exact inv_finish hInv hg halive (midFacts_of_remMid hInv hg halive hmid) htb ha2 hs''

/-- The data-model invariant holds in every reachable state. -/
theorem reachable_inv {T : Type} [Inhabited T] {s : PackedFreelist T}
    (h : Reachable s) : Inv s := by
  induction h with
  | init n s hn => exact inv_new hn
  | insertStep s v id s' _ hstep ih => exact inv_insert ih hstep
  | removeStep s id s' _ hstep ih => exact inv_remove ih hstep

/-! ### Behavioural consequences of remove -/

theorem contains_true_iff {T : Type} {s : PackedFreelist T} {x : Nat} :
    contains s x = true ↔ ∃ b : Allocation, s.allocations[x % 0x10000]? = some b ∧
      b.allocation_id = x ∧ b.object_index ≠ TOMBSTONE := by
  unfold contains
  rcases hg : s.allocations[x % 0x10000]? with _ | b
  · simp
  · simp

/-- The id argument of remove is only ever used masked, so any two ids with the
same low 16 bits are treated identically. -/
theorem remove_mask {T : Type} (s : PackedFreelist T) {i1 i2 : Nat}
    (h : i1 % 0x10000 = i2 % 0x10000) : remove s i1 = remove s i2 := by
  unfold remove
  rw [h]

theorem remove_live_spec {T : Type} {s : PackedFreelist T} {id : Nat} {al : Allocation}
    (hInv : Inv s) (hg : s.allocations[id % 0x10000]? = some al)
    (halive : al.object_index ≠ TOMBSTONE) :
    ∃ s', remove s id = some s' ∧
      s'.num_objects + 1 = s.num_objects ∧
      (∀ x : Nat, x % 0x10000 = id % 0x10000 → contains s' x = false) ∧
      (∀ u : Nat, contains s u = true → u % 0x10000 ≠ id % 0x10000 →
        contains s' u = true ∧ index s' u = index s u) ∧
      (al.object_index ≠ s.num_objects - 1 →
        s'.objects[al.object_index]? = s.objects[s.num_objects - 1]? ∧
        ∃ b' : Allocation, s'.allocations[oaiAt s (s.num_objects - 1) % 0x10000]? = some b' ∧
          b'.object_index = al.object_index ∧
          b'.allocation_id = oaiAt s (s.num_objects - 1)) := by
  obtain ⟨s', heq, s1, tb, a2, hmid, htb, ha2, hs'⟩ := remove_eq_live hInv hg halive
  have hM := midFacts_of_remMid hInv hg halive hmid
  obtain ⟨hp, hoeP⟩ := hInv.hLive _ al hg halive
  have hslotId := hInv.hSlot _ al hg
  have hslotLt : id % 0x10000 < s.allocations.length := (List.getElem?_eq_some.mp hg).1
  have hslotLt1 : id % 0x10000 < s1.allocations.length := by
    rw [hM.mALen]
    exact hslotLt
  have hcapLt := hInv.hCapLt
  have hNumLe := hInv.hNumLe
  have hObjLe := hInv.hObjLe
  have hCapO := hInv.hCapO
  have hA'slot : s'.allocations[id % 0x10000]? = some { a2 with object_index := TOMBSTONE } := by
    rw [hs']
    exact getE_set_self _ (by rw [List.length_set]; exact hslotLt1)
  have htLt : s1.last_allocation < s1.allocations.length := (List.getElem?_eq_some.mp htb).1
  have hA'ne : ∀ i : Nat, i ≠ id % 0x10000 → i ≠ s1.last_allocation →
      s'.allocations[i]? = s1.allocations[i]? := by
    intro i h1 h2
    rw [hs']
    show ((s1.allocations.set _ _).set (id % 0x10000) _)[i]? = _
    rw [getE_set_ne _ (fun hc => h1 hc.symm), getE_set_ne _ (fun hc => h2 hc.symm)]
  have hA't : s1.last_allocation ≠ id % 0x10000 →
      s'.allocations[s1.last_allocation]? = some { tb with next_allocation := id % 0x10000 } := by
    intro hts
    rw [hs']
    show ((s1.allocations.set _ _).set (id % 0x10000) _)[s1.last_allocation]? = _
    rw [getE_set_ne _ (fun hc => hts hc.symm), getE_set_self _ htLt]
  have hpreserve : ∀ (i : Nat) (b : Allocation), i ≠ id % 0x10000 →
      s1.allocations[i]? = some b →
      ∃ b' : Allocation, s'.allocations[i]? = some b' ∧
        b'.allocation_id = b.allocation_id ∧ b'.object_index = b.object_index := by
    intro i b hine hib
    by_cases hit : i = s1.last_allocation
    · rw [hit, htb] at hib
      injection hib with hib
      refine ⟨{ tb with next_allocation := id % 0x10000 }, ?_, ?_, ?_⟩
      · rw [hit]
        exact hA't (fun hc => hine (hit.trans hc))
      · show tb.allocation_id = b.allocation_id
        rw [hib]
      · show tb.object_index = b.object_index
        rw [hib]
    · refine ⟨b, ?_, rfl, rfl⟩
      rw [hA'ne i hine hit]
      exact hib
  have hObjs' : s'.objects = s1.objects.dropLast := by
    rw [hs']
  have hlen1 : s1.objects.length = s.objects.length := hM.mObjLen
  refine ⟨s', heq, ?_, ?_, ?_, ?_⟩
  · rw [hs']
    show s1.num_objects - 1 + 1 = s.num_objects
    rw [hM.mNum]
    omega
  · intro x hx
    have hxrec : s'.allocations[x % 0x10000]? = some { a2 with object_index := TOMBSTONE } := by
      rw [hx]
      exact hA'slot
    unfold contains
    rw [hxrec]
    simp
  · intro u hu hune
    obtain ⟨bu, hgbu, hbuid, hbuT⟩ := contains_true_iff.mp hu
    obtain ⟨hqlt, hoeq⟩ := hInv.hLive _ bu hgbu hbuT
    have hidxu : index s u = s.objects[bu.object_index]? := by
      unfold index
      rw [hgbu]
    have hkey : ∃ q' : Nat, (∃ b1 : Allocation, s1.allocations[u % 0x10000]? = some b1 ∧
        b1.allocation_id = u ∧ b1.object_index = q') ∧
        q' < s.num_objects - 1 ∧ s1.objects[q']? = s.objects[bu.object_index]? := by
      rcases hmid with ⟨hpl, h1eq⟩ | ⟨hpl, vlast, vp, midId, mal, hvlast, hvp, hmidId, hmal, h1eq⟩
      · rw [h1eq]
        have hqne : bu.object_index ≠ s.num_objects - 1 := by
          intro hc
          rw [hc] at hoeq
          rw [hpl] at hoeP
          rw [hoeP] at hoeq
          injection hoeq with he
          apply hune
          rw [← hbuid, ← he]
          exact hslotId
        exact ⟨bu.object_index, ⟨bu, hgbu, hbuid, rfl⟩, by omega, rfl⟩
      · subst h1eq
        obtain ⟨id0, a0, hx1, hx2, hx3, hx4⟩ := hInv.hPos (s.num_objects - 1) (by omega)
        rw [hmidId] at hx1
        injection hx1 with hx1
        subst hx1
        rw [hmal] at hx2
        injection hx2 with hx2
        subst hx2
        by_cases hql : bu.object_index = s.num_objects - 1
        · have humid : u = midId := by
            rw [hql, hmidId] at hoeq
            injection hoeq with he
            exact (he.trans hbuid).symm
          refine ⟨al.object_index,
            ⟨{ mal with object_index := al.object_index }, ?_, ?_, rfl⟩, by omega, ?_⟩
          · rw [humid]
            show (s.allocations.set (midId % 0x10000) _)[midId % 0x10000]? = _
            exact getE_set_self _ (List.getElem?_eq_some.mp hmal).1
          · show mal.allocation_id = u
            rw [hx3, humid]
          · show ((s.objects.set (s.num_objects - 1) vp).set
              al.object_index vlast)[al.object_index]? = s.objects[bu.object_index]?
            rw [getE_set_self _ (by rw [List.length_set]; omega), hql, hvlast]
        · have hqp : bu.object_index ≠ al.object_index := by
            intro hc
            rw [hc, hoeP] at hoeq
            injection hoeq with he
            apply hune
            rw [← hbuid, ← he]
            exact hslotId
          have hsuj : u % 0x10000 ≠ midId % 0x10000 := by
            intro hc
            rw [hc, hmal] at hgbu
            injection hgbu with he
            rw [he] at hx4
            exact hql hx4
          refine ⟨bu.object_index, ⟨bu, ?_, hbuid, rfl⟩, by omega, ?_⟩
          · show (s.allocations.set (midId % 0x10000) _)[u % 0x10000]? = _
            rw [getE_set_ne _ (fun hc => hsuj hc.symm)]
            exact hgbu
          · show ((s.objects.set (s.num_objects - 1) vp).set
              al.object_index vlast)[bu.object_index]? = s.objects[bu.object_index]?
            rw [getE_set_ne _ (fun hc => hqp hc.symm),
              getE_set_ne _ (fun hc => hql hc.symm)]
    obtain ⟨q', ⟨b1, hb1g, hb1id, hb1oi⟩, hq'lt, hq'obj⟩ := hkey
    have hb1T : b1.object_index ≠ TOMBSTONE := by
      rw [hb1oi]
      unfold TOMBSTONE at hcapLt ⊢
      omega
    obtain ⟨b', hb'g, hb'id, hb'oi⟩ := hpreserve _ b1 hune hb1g
    constructor
    · rw [contains_true_iff]
      refine ⟨b', hb'g, ?_, ?_⟩
      · rw [hb'id, hb1id]
      · rw [hb'oi]
        exact hb1T
    · rw [hidxu]
      unfold index
      rw [hb'g]
      show s'.objects[b'.object_index]? = s.objects[bu.object_index]?
      rw [hb'oi, hb1oi, hObjs']
      rw [getE_dropLast (by omega)]
      exact hq'obj
  · intro hpne
    rcases hmid with ⟨hpl, h1eq⟩ | ⟨hpl, vlast, vp, midId, mal, hvlast, hvp, hmidId, hmal, h1eq⟩
    · exact absurd hpl hpne
    · subst h1eq
      obtain ⟨id0, a0, hx1, hx2, hx3, hx4⟩ := hInv.hPos (s.num_objects - 1) (by omega)
      rw [hmidId] at hx1
      injection hx1 with hx1
      subst hx1
      rw [hmal] at hx2
      injection hx2 with hx2
      subst hx2
      have hjne : midId % 0x10000 ≠ id % 0x10000 := by
        intro hc
        rw [hc, hg] at hmal
        injection hmal with he
        rw [he] at hpl
        exact hpl hx4
      have hmid' : oaiAt s (s.num_objects - 1) = midId := oaiAt_eq hmidId
      constructor
      · rw [hObjs']
        rw [getE_dropLast (by
          show al.object_index + 1 <
            ((s.objects.set (s.num_objects - 1) vp).set al.object_index vlast).length
          rw [List.length_set, List.length_set]
          omega)]
        show ((s.objects.set (s.num_objects - 1) vp).set
          al.object_index vlast)[al.object_index]? = s.objects[s.num_objects - 1]?
        rw [getE_set_self _ (by rw [List.length_set]; omega), hvlast]
      · rw [hmid']
        obtain ⟨b', hb'g, hb'id, hb'oi⟩ := hpreserve (midId % 0x10000)
          { mal with object_index := al.object_index } hjne
          (by
            show (s.allocations.set (midId % 0x10000) _)[midId % 0x10000]? = _
            exact getE_set_self _ (List.getElem?_eq_some.mp hmal).1)
        refine ⟨b', hb'g, ?_, ?_⟩
        · rw [hb'oi]
        · rw [hb'id]
          exact hx3

/-- While fewer than capacity inserts have ever completed (the objects Vec
still has a spare slot), the free-queue head cursor points at a free record. -/
theorem head_free_of_spare {T : Type} {s : PackedFreelist T} (hInv : Inv s)
    (hsp : s.num_objects < s.objects.length) :
    (allocAt s s.next_allocation).object_index = TOMBSTONE := by
  have hQ := hInv.hQueue hsp
  have hf : 1 ≤ s.objectsCap - s.num_objects := by
    have := hInv.hObjLe
    omega
  have hcons : chain s s.next_allocation (s.objectsCap - s.num_objects) =
      s.next_allocation ::
        chain s (nextAt s s.next_allocation) (s.objectsCap - s.num_objects - 1) := by
    rw [show s.objectsCap - s.num_objects = (s.objectsCap - s.num_objects - 1) + 1 by omega]
    rfl
  obtain ⟨b, hb, hbT⟩ := hQ.2.1 s.next_allocation (by
    rw [hcons]
    exact List.mem_cons_self _ _)
  rw [allocAt_eq hb]
  exact hbT

/-! ### Concrete example states

These are the states reached by short operation sequences; each is verified
against the corresponding operation by kernel evaluation and used as witness
material below. -/

/-- Fresh capacity-1 container. -/
def ex1_0 : PackedFreelist Nat :=
  { objects := [0], objectsCap := 1, num_objects := 0, object_alloc_ids := [0],
    allocations := [{ allocation_id := 0, object_index := 65535, next_allocation := 0 }],
    last_allocation := 0, next_allocation := 0 }

/-- After inserting 7 into ex1_0 (returned id 65536 = slot 0, generation 1). -/
def ex1_1 : PackedFreelist Nat :=
  { objects := [7], objectsCap := 1, num_objects := 1, object_alloc_ids := [65536],
    allocations := [{ allocation_id := 65536, object_index := 0, next_allocation := 0 }],
    last_allocation := 0, next_allocation := 0 }

/-- After removing id 65536 from ex1_1: note the objects Vec was popped to
length 0 although the capacity is still 1. -/
def ex1_2 : PackedFreelist Nat :=
  { objects := [], objectsCap := 1, num_objects := 0, object_alloc_ids := [65536],
    allocations := [{ allocation_id := 65536, object_index := 65535, next_allocation := 0 }],
    last_allocation := 0, next_allocation := 0 }

theorem ex1_0_def : new Nat 1 = some ex1_0 := by decide

theorem ex1_1_def : insert ex1_0 7 = some (.ok 65536 ex1_1) := by decide

theorem ex1_2_def : remove ex1_1 65536 = some ex1_2 := by decide

theorem ex1_0_reach : Reachable ex1_0 := Reachable.init 1 ex1_0 ex1_0_def

theorem ex1_1_reach : Reachable ex1_1 :=
  Reachable.insertStep ex1_0 7 65536 ex1_1 ex1_0_reach ex1_1_def

theorem ex1_2_reach : Reachable ex1_2 :=
  Reachable.removeStep ex1_1 65536 ex1_2 ex1_1_reach ex1_2_def

/-- Fresh capacity-2 container. -/
def ex2_0 : PackedFreelist Nat :=
  { objects := [0, 0], objectsCap := 2, num_objects := 0, object_alloc_ids := [0, 0],
    allocations := [{ allocation_id := 0, object_index := 65535, next_allocation := 1 },
                    { allocation_id := 1, object_index := 65535, next_allocation := 0 }],
    last_allocation := 1, next_allocation := 0 }

/-- After inserting 10 (id 65536). -/
def ex2_1 : PackedFreelist Nat :=
  { objects := [10, 0], objectsCap := 2, num_objects := 1, object_alloc_ids := [65536, 0],
    allocations := [{ allocation_id := 65536, object_index := 0, next_allocation := 1 },
                    { allocation_id := 1, object_index := 65535, next_allocation := 0 }],
    last_allocation := 1, next_allocation := 1 }

/-- After also inserting 20 (id 65537): the container is full and the head
cursor was loaded from record 1's stale ring link, so it points at slot 0. -/
def ex2_2 : PackedFreelist Nat :=
  { objects := [10, 20], objectsCap := 2, num_objects := 2, object_alloc_ids := [65536, 65537],
    allocations := [{ allocation_id := 65536, object_index := 0, next_allocation := 1 },
                    { allocation_id := 65537, object_index := 1, next_allocation := 0 }],
    last_allocation := 1, next_allocation := 0 }

/-- After removing id 65537: len is 1 < capacity 2, but the head cursor (0)
points at the live record of id 65536. -/
def ex2_3 : PackedFreelist Nat :=
  { objects := [10], objectsCap := 2, num_objects := 1, object_alloc_ids := [65536, 65537],
    allocations := [{ allocation_id := 65536, object_index := 0, next_allocation := 1 },
                    { allocation_id := 65537, object_index := 65535, next_allocation := 1 }],
    last_allocation := 1, next_allocation := 0 }

theorem ex2_0_def : new Nat 2 = some ex2_0 := by decide

theorem ex2_1_def : insert ex2_0 10 = some (.ok 65536 ex2_1) := by decide

theorem ex2_2_def : insert ex2_1 20 = some (.ok 65537 ex2_2) := by decide

theorem ex2_3_def : remove ex2_2 65537 = some ex2_3 := by decide

theorem ex2_3_reach : Reachable ex2_3 :=
  Reachable.removeStep ex2_2 65537 ex2_3
    (Reachable.insertStep ex2_1 20 65537 ex2_2
      (Reachable.insertStep ex2_0 10 65536 ex2_1
        (Reachable.init 2 ex2_0 ex2_0_def) ex2_1_def) ex2_2_def) ex2_3_def

/-- Fresh capacity-3 container. -/
def ex3_0 : PackedFreelist Nat :=
  { objects := [0, 0, 0], objectsCap := 3, num_objects := 0, object_alloc_ids := [0, 0, 0],
    allocations := [{ allocation_id := 0, object_index := 65535, next_allocation := 1 },
                    { allocation_id := 1, object_index := 65535, next_allocation := 2 },
                    { allocation_id := 2, object_index := 65535, next_allocation := 0 }],
    last_allocation := 2, next_allocation := 0 }

def ex3_1 : PackedFreelist Nat :=
  { objects := [10, 0, 0], objectsCap := 3, num_objects := 1, object_alloc_ids := [65536, 0, 0],
    allocations := [{ allocation_id := 65536, object_index := 0, next_allocation := 1 },
                    { allocation_id := 1, object_index := 65535, next_allocation := 2 },
                    { allocation_id := 2, object_index := 65535, next_allocation := 0 }],
    last_allocation := 2, next_allocation := 1 }

def ex3_2 : PackedFreelist Nat :=
  { objects := [10, 20, 0], objectsCap := 3, num_objects := 2,
    object_alloc_ids := [65536, 65537, 0],
    allocations := [{ allocation_id := 65536, object_index := 0, next_allocation := 1 },
                    { allocation_id := 65537, object_index := 1, next_allocation := 2 },
                    { allocation_id := 2, object_index := 65535, next_allocation := 0 }],
    last_allocation := 2, next_allocation := 2 }

def ex3_3 : PackedFreelist Nat :=
  { objects := [10, 20, 30], objectsCap := 3, num_objects := 3,
    object_alloc_ids := [65536, 65537, 65538],
    allocations := [{ allocation_id := 65536, object_index := 0, next_allocation := 1 },
                    { allocation_id := 65537, object_index := 1, next_allocation := 2 },
                    { allocation_id := 65538, object_index := 2, next_allocation := 0 }],
    last_allocation := 2, next_allocation := 0 }

/-- After remove(a): the last value 30 was relocated into position 0. -/
def ex3_4 : PackedFreelist Nat :=
  { objects := [30, 20], objectsCap := 3, num_objects := 2,
    object_alloc_ids := [65538, 65537, 65538],
    allocations := [{ allocation_id := 65536, object_index := 65535, next_allocation := 1 },
                    { allocation_id := 65537, object_index := 1, next_allocation := 2 },
                    { allocation_id := 65538, object_index := 0, next_allocation := 0 }],
    last_allocation := 0, next_allocation := 0 }

def ex3_5 : PackedFreelist Nat :=
  { objects := [20], objectsCap := 3, num_objects := 1,
    object_alloc_ids := [65537, 65537, 65538],
    allocations := [{ allocation_id := 65536, object_index := 65535, next_allocation := 2 },
                    { allocation_id := 65537, object_index := 0, next_allocation := 2 },
                    { allocation_id := 65538, object_index := 65535, next_allocation := 0 }],
    last_allocation := 2, next_allocation := 0 }

def ex3_6 : PackedFreelist Nat :=
  { objects := [], objectsCap := 3, num_objects := 0,
    object_alloc_ids := [65537, 65537, 65538],
    allocations := [{ allocation_id := 65536, object_index := 65535, next_allocation := 2 },
                    { allocation_id := 65537, object_index := 65535, next_allocation := 2 },
                    { allocation_id := 65538, object_index := 65535, next_allocation := 1 }],
    last_allocation := 1, next_allocation := 0 }

theorem ex3_0_def : new Nat 3 = some ex3_0 := by decide

theorem ex3_1_def : insert ex3_0 10 = some (.ok 65536 ex3_1) := by decide

theorem ex3_2_def : insert ex3_1 20 = some (.ok 65537 ex3_2) := by decide

theorem ex3_3_def : insert ex3_2 30 = some (.ok 65538 ex3_3) := by decide

theorem ex3_4_def : remove ex3_3 65536 = some ex3_4 := by decide

theorem ex3_5_def : remove ex3_4 65538 = some ex3_5 := by decide

theorem ex3_6_def : remove ex3_5 65537 = some ex3_6 := by decide

theorem ex3_3_reach : Reachable ex3_3 :=
  Reachable.insertStep ex3_2 30 65538 ex3_3
    (Reachable.insertStep ex3_1 20 65537 ex3_2
      (Reachable.insertStep ex3_0 10 65536 ex3_1
        (Reachable.init 3 ex3_0 ex3_0_def) ex3_1_def) ex3_2_def) ex3_3_def

theorem ex3_4_reach : Reachable ex3_4 :=
  Reachable.removeStep ex3_3 65536 ex3_4 ex3_3_reach ex3_4_def

theorem get_allocAt {T : Type} {s : PackedFreelist T} {i : Nat}
    (h : i < s.allocations.length) : s.allocations[i]? = some (allocAt s i) := by
  rw [List.getElem?_eq_getElem h]
  unfold allocAt
  rw [List.getD_eq_getElem?_getD, List.getElem?_eq_getElem h]
  rfl

theorem gen_bump (x : Nat) :
    (x + 0x10000) % U32_MOD / 0x10000 = (x / 0x10000 + 1) % 0x10000 := by
  unfold U32_MOD
  omega

/-! ### Claim theorems -/

/-- Claim C1, counterexample: removing an id that is no longer contained does
not fail with a recoverable NotFound error — it panics.  After insert and
remove on a fresh capacity-1 container, the id is gone (contains is false),
and the second remove of the same id hits the `object_index out of range`
panic (modelled as `none`). -/
theorem C1_counterexample :
    new Nat 1 = some ex1_0 ∧ insert ex1_0 7 = some (.ok 65536 ex1_1) ∧
    remove ex1_1 65536 = some ex1_2 ∧ contains ex1_2 65536 = false ∧
    size ex1_2 = 0 ∧ remove ex1_2 65536 = none := by decide

/-- Claim C1 (amended): in a reachable state, for an id with contains false,
remove never returns a NotFound error value: it panics (models as `none`) when
the id's slot is out of range or the slot's record is free, and when the
slot's record is live (the id merely stale/foreign in its generation bits) it
behaves exactly like removing the slot's genuine current id — it succeeds and
destroys the live value, decreasing the size. -/
theorem C1_remove_invalid (s : PackedFreelist Nat) (x : Nat) (hR : Reachable s)
    (hc : contains s x = false) :
    ((s.allocations.length ≤ x % 0x10000 ∨
        (allocAt s (x % 0x10000)).object_index = TOMBSTONE) → remove s x = none) ∧
    (x % 0x10000 < s.allocations.length →
      (allocAt s (x % 0x10000)).object_index ≠ TOMBSTONE →
      remove s x = remove s ((allocAt s (x % 0x10000)).allocation_id) ∧
      ∃ s', remove s x = some s' ∧ size s' + 1 = size s) := by
  have hInv := reachable_inv hR
  constructor
  · intro hcase
    rcases hcase with hoob | hfree
    · exact remove_none_slot (List.getElem?_eq_none hoob)
    · by_cases hlt : x % 0x10000 < s.allocations.length
      · apply remove_none_obj (get_allocAt hlt)
        rw [hfree]
        apply List.getElem?_eq_none
        have h1 := hInv.hObjLe
        have h2 := hInv.hCapLt
        unfold TOMBSTONE at h2 ⊢
        omega
      · exact remove_none_slot (List.getElem?_eq_none (by omega))
  · intro hlt hT
    have hg := get_allocAt hlt
    have hmask := hInv.hSlot _ _ hg
    obtain ⟨s', h1, h2, _, _, _⟩ := remove_live_spec hInv hg hT
    exact ⟨(remove_mask s hmask).symm, s', h1, h2⟩

/-- Witness for C1_remove_invalid at the concrete double-remove state. -/
theorem C1_witness : remove ex1_2 65536 = none :=
  (C1_remove_invalid ex1_2 65536 ex1_2_reach (by decide)).1 (Or.inr (by decide))

/-- Claim C2: refuted by the code.  On a fresh capacity-1 container the first
insert succeeds and a second insert while full fails with the capacity error
(here `.err 0`, carrying the object index), as claimed; but after a remove the
container has len 0 < capacity 1 and the next insert panics (models as
`none`): remove popped the objects Vec, so the unchecked write
`objects[object_index] = value` in insert is out of bounds.  The claimed
iff between failure and len = capacity is therefore false in reachable
states with removes. -/
theorem C2_insert_after_remove_panics :
    new Nat 1 = some ex1_0 ∧ insert ex1_0 7 = some (.ok 65536 ex1_1) ∧
    size ex1_1 = 1 ∧ capacity ex1_1 = 1 ∧ insert ex1_1 9 = some (.err 0) ∧
    remove ex1_1 65536 = some ex1_2 ∧ size ex1_2 = 0 ∧ capacity ex1_2 = 1 ∧
    insert ex1_2 8 = none := by decide

/-- Claim C5: contains is total (it is a plain Bool-valued function on every
id and state, defined only from checked lookups) and in every reachable state
returns true exactly when the slot index is within capacity, the record's
current id equals the queried id exactly, and the record is not free. -/
theorem C5_contains_total_iff (s : PackedFreelist Nat) (id : Nat) (hR : Reachable s) :
    contains s id = true ↔
      id % 0x10000 < capacity s ∧
      (allocAt s (id % 0x10000)).allocation_id = id ∧
      (allocAt s (id % 0x10000)).object_index ≠ TOMBSTONE := by
  have hInv := reachable_inv hR
  have hcap : capacity s = s.allocations.length := by
    unfold capacity
    rw [hInv.hCapA]
  rw [contains_true_iff, hcap]
  constructor
  · rintro ⟨b, hb, hid, hT⟩
    have hlt : id % 0x10000 < s.allocations.length := (List.getElem?_eq_some.mp hb).1
    rw [allocAt_eq hb]
    exact ⟨hlt, hid, hT⟩
  · rintro ⟨hlt, hid, hT⟩
    exact ⟨allocAt s (id % 0x10000), get_allocAt hlt, hid, hT⟩

/-- Witness for C5_contains_total_iff on a live id in a concrete state. -/
theorem C5_witness :
    contains ex1_1 65536 = true ↔
      65536 % 0x10000 < capacity ex1_1 ∧
      (allocAt ex1_1 (65536 % 0x10000)).allocation_id = 65536 ∧
      (allocAt ex1_1 (65536 % 0x10000)).object_index ≠ TOMBSTONE :=
  C5_contains_total_iff ex1_1 65536 ex1_1_reach

/-- Claim C3: the data-model invariants hold in every reachable state: every
contained id's record carries that exact id, is live, and points into the
packed prefix [0, len); every packed position p < len holds a live id whose
record points back at p; and no record points at a position ≥ len. -/
theorem C3_invariants (s : PackedFreelist Nat) (hR : Reachable s) :
    (∀ id : Nat, contains s id = true →
        (allocAt s (id % 0x10000)).allocation_id = id ∧
        (allocAt s (id % 0x10000)).object_index ≠ TOMBSTONE ∧
        (allocAt s (id % 0x10000)).object_index < size s) ∧
    (∀ p : Nat, p < size s →
        contains s (oaiAt s p) = true ∧
        (allocAt s (oaiAt s p % 0x10000)).object_index = p) ∧
    (∀ i : Nat, i < s.allocations.length →
        (allocAt s i).object_index ≠ TOMBSTONE →
        (allocAt s i).object_index < size s) := by
  have hInv := reachable_inv hR
  refine ⟨?_, ?_, ?_⟩
  · intro id hc
    obtain ⟨b, hb, hid, hT⟩ := contains_true_iff.mp hc
    rw [allocAt_eq hb]
    exact ⟨hid, hT, (hInv.hLive _ b hb hT).1⟩
  · intro p hp
    obtain ⟨id0, b, h1, h2, h3, h4⟩ := hInv.hPos p hp
    rw [oaiAt_eq h1]
    constructor
    · rw [contains_true_iff]
      refine ⟨b, h2, h3, ?_⟩
      rw [h4]
      have h5 := hInv.hCapLt
      have h6 := hInv.hObjLe
      have h7 := hInv.hNumLe
      have h8 : p < s.num_objects := hp
      unfold TOMBSTONE at h5 ⊢
      omega
    · rw [allocAt_eq h2]
      exact h4
  · intro i hi hT
    exact (hInv.hLive i _ (get_allocAt hi) hT).1

/-- Witness for C3_invariants: the packed-position clause at position 0 of a
state reached through three inserts and a relocating remove. -/
theorem C3_witness :
    contains ex3_4 (oaiAt ex3_4 0) = true ∧
    (allocAt ex3_4 (oaiAt ex3_4 0 % 0x10000)).object_index = 0 :=
  (C3_invariants ex3_4 ex3_4_reach).2.1 0 (by decide)

/-- Claim C4: removing a contained id succeeds, afterwards the id is gone,
the size drops by one, every other contained id is still contained with the
same value, and when the removed value was not at the last packed position
the last value is relocated into its position with its record's
object_index fixed up; and the concrete capacity-3 scenario (insert 10, 20,
30, then remove in the order first, third, second) passes through sizes
2, 1, 0 with exactly the expected ids live at each step. -/
theorem C4_remove_spec :
    (∀ (s : PackedFreelist Nat) (v : Nat), Reachable s → contains s v = true →
      ∃ s', remove s v = some s' ∧ contains s' v = false ∧
        size s' + 1 = size s ∧
        (∀ u : Nat, contains s u = true → u ≠ v →
          contains s' u = true ∧ index s' u = index s u) ∧
        ((allocAt s (v % 0x10000)).object_index ≠ size s - 1 →
          s'.objects[(allocAt s (v % 0x10000)).object_index]? =
            s.objects[size s - 1]? ∧
          ∃ b' : Allocation,
            s'.allocations[oaiAt s (size s - 1) % 0x10000]? = some b' ∧
            b'.object_index = (allocAt s (v % 0x10000)).object_index ∧
            b'.allocation_id = oaiAt s (size s - 1))) ∧
    (remove ex3_3 65536 = some ex3_4 ∧ size ex3_4 = 2 ∧
      contains ex3_4 65537 = true ∧ contains ex3_4 65538 = true ∧
      contains ex3_4 65536 = false ∧
      remove ex3_4 65538 = some ex3_5 ∧ size ex3_5 = 1 ∧
      contains ex3_5 65537 = true ∧ contains ex3_5 65538 = false ∧
      contains ex3_5 65536 = false ∧
      remove ex3_5 65537 = some ex3_6 ∧ size ex3_6 = 0 ∧
      contains ex3_6 65537 = false) := by
  constructor
  · intro s v hR hc
    have hInv := reachable_inv hR
    obtain ⟨b, hb, hbid, hbT⟩ := contains_true_iff.mp hc
    have halAt : allocAt s (v % 0x10000) = b := allocAt_eq hb
    obtain ⟨s', h1, h2, h3, h4, h5⟩ := remove_live_spec hInv hb hbT
    refine ⟨s', h1, h3 v rfl, h2, ?_, ?_⟩
    · intro u hu hune
      apply h4 u hu
      intro hcm
      apply hune
      obtain ⟨bu, hbu, hbuid, _⟩ := contains_true_iff.mp hu
      rw [hcm, hb] at hbu
      injection hbu with hbu
      rw [← hbuid, ← hbu, hbid]
    · rw [halAt]
      intro hne
      exact h5 hne
  · decide

/-- Witness for C4_remove_spec: the general clause applied to the relocating
remove of id 65536 from the full capacity-3 state. -/
theorem C4_witness :
    ∃ s', remove ex3_3 65536 = some s' ∧ contains s' 65536 = false ∧
      size s' + 1 = size ex3_3 := by
  obtain ⟨s', h1, h2, h3, _, _⟩ :=
    C4_remove_spec.1 ex3_3 65536 ex3_3_reach (by decide)
  exact ⟨s', h1, h2, h3⟩

/-- Claim C6, counterexample: the slice and iterator views are the whole
backing Vec, not just the live prefix.  A fresh capacity-1 container has
len 0 but both views yield one element — the default placeholder. -/
theorem C6_counterexample :
    new Nat 1 = some ex1_0 ∧ size ex1_0 = 0 ∧ deref ex1_0 = [0] ∧
    into_iter ex1_0 = [0] ∧ (deref ex1_0).length = 1 := by decide

/-- Claim C6 (amended): both views return the entire backing objects Vec,
whose length is at least len (strictly greater in states like a fresh
container or after insert-remove sequences at positions beyond len); the
first len elements are exactly the live values in packed order — position
p < len holds the value of the live id recorded at p. -/
theorem C6_views (s : PackedFreelist Nat) (hR : Reachable s) :
    deref s = s.objects ∧ into_iter s = s.objects ∧
    size s ≤ (deref s).length ∧
    (∀ p : Nat, p < size s →
      contains s (oaiAt s p) = true ∧
      index s (oaiAt s p) = (deref s)[p]?) := by
  have hInv := reachable_inv hR
  refine ⟨rfl, rfl, hInv.hNumLe, ?_⟩
  intro p hp
  obtain ⟨id0, b, h1, h2, h3, h4⟩ := hInv.hPos p hp
  rw [oaiAt_eq h1]
  constructor
  · rw [contains_true_iff]
    refine ⟨b, h2, h3, ?_⟩
    rw [h4]
    have h5 := hInv.hCapLt
    have h6 := hInv.hObjLe
    have h7 := hInv.hNumLe
    have h8 : p < s.num_objects := hp
    unfold TOMBSTONE at h5 ⊢
    omega
  · unfold index deref
    rw [h2]
    show s.objects[b.object_index]? = s.objects[p]?
    rw [h4]

/-- Witness for C6_views at the one-element state after a single insert. -/
theorem C6_witness :
    contains ex1_1 (oaiAt ex1_1 0) = true ∧
    index ex1_1 (oaiAt ex1_1 0) = (deref ex1_1)[0]? :=
  (C6_views ex1_1 ex1_1_reach).2.2.2 0 (by decide)

/-- Claim C7, counterexample: on a capacity-2 container, after filling it and
removing the second id, len is 1 < capacity 2 but the free-queue head cursor
(next_allocation = 0) points at the record of slot 0, which is still live —
the head dangles on a live record, refuting the claimed head-free invariant
for all reachable states with len < capacity. -/
theorem C7_counterexample :
    new Nat 2 = some ex2_0 ∧ insert ex2_0 10 = some (.ok 65536 ex2_1) ∧
    insert ex2_1 20 = some (.ok 65537 ex2_2) ∧
    remove ex2_2 65537 = some ex2_3 ∧
    size ex2_3 = 1 ∧ capacity ex2_3 = 2 ∧ ex2_3.next_allocation = 0 ∧
    (allocAt ex2_3 0).object_index = 0 ∧
    (allocAt ex2_3 0).object_index ≠ TOMBSTONE := by decide

/-- Claim C7 (amended): the initialization part holds — a fresh container has
head 0, tail n-1, every record free with ring links (i+1) mod n, and the
chain of n links from the head visits 0, ..., n-1 exactly once ending at the
tail.  The head-free part only holds while the container has never yet been
full (fewer than capacity lifetime inserts, i.e. the objects Vec still has a
spare slot): then the head cursor points at a free record. -/
theorem C7_free_queue :
    (∀ (n : Nat) (s0 : PackedFreelist Nat), 1 ≤ n → new Nat n = some s0 →
      s0.next_allocation = 0 ∧ s0.last_allocation = n - 1 ∧
      (∀ i, i < n → allocAt s0 i =
        { allocation_id := i, object_index := TOMBSTONE,
          next_allocation := (i + 1) % n }) ∧
      chain s0 0 n = List.range n ∧ (chain s0 0 n).Nodup ∧
      (chain s0 0 n).getLast? = some (n - 1)) ∧
    (∀ s : PackedFreelist Nat, Reachable s → s.num_objects < s.objects.length →
      (allocAt s s.next_allocation).object_index = TOMBSTONE) := by
  constructor
  · intro n s0 hn hnew
    obtain ⟨hcap, hs0⟩ := new_eq_some hnew
    have hch : chain s0 0 n = List.range' 0 n := by
      apply chain_new (by rw [hs0]) n 0 (by omega) (by omega)
    have hrange : chain s0 0 n = List.range n := by
      rw [hch, List.range_eq_range']
    refine ⟨by rw [hs0], ?_, ?_, hrange, ?_, ?_⟩
    · rw [hs0]
      show (n + 0xFFFF) % 0x10000 = n - 1
      unfold TOMBSTONE at hcap
      omega
    · intro i hi
      have hrec : s0.allocations[i]? =
          some { allocation_id := i, object_index := TOMBSTONE,
                 next_allocation := if i = n - 1 then 0 else i + 1 } := by
        rw [hs0]
        exact newAllocations_get hi
      rw [allocAt_eq hrec]
      have hif : (if i = n - 1 then 0 else i + 1) = (i + 1) % n := by
        by_cases hx : i = n - 1
        · rw [if_pos hx, hx, Nat.sub_add_cancel hn, Nat.mod_self]
        · rw [if_neg hx, Nat.mod_eq_of_lt (by omega)]
      rw [hif]
    · rw [hrange]
      exact List.nodup_range n
    · rw [hch, getLast?_range' 0 n hn]
      simp
  · intro s hR hsp
    exact head_free_of_spare (reachable_inv hR) hsp

/-- Witness for C7_free_queue: the initialization clause on a fresh
capacity-3 container. -/
theorem C7_witness :
    ex3_0.next_allocation = 0 ∧ ex3_0.last_allocation = 3 - 1 ∧
    (∀ i, i < 3 → allocAt ex3_0 i =
      { allocation_id := i, object_index := TOMBSTONE,
        next_allocation := (i + 1) % 3 }) ∧
    chain ex3_0 0 3 = List.range 3 ∧ (chain ex3_0 0 3).Nodup ∧
    (chain ex3_0 0 3).getLast? = some (3 - 1) :=
  C7_free_queue.1 3 ex3_0 (by decide) ex3_0_def

/-- Claim C8: the generation-increment part holds — every successful insert
returns an id whose low 16 bits equal those of the dequeued record's previous
id and whose generation field is the previous generation plus one modulo
2^16.  But the claimed capacity-1 insert-remove-insert freshness scenario is
refuted by the code: the second insert panics (models as `none`) because
remove popped the objects Vec, so no second id is ever produced. -/
theorem C8_generation_increment :
    (∀ (s : PackedFreelist Nat) (v id : Nat) (s' : PackedFreelist Nat),
      Reachable s → insert s v = some (.ok id s') →
      slotOf id = slotOf (allocAt s s.next_allocation).allocation_id ∧
      genOf id =
        (genOf (allocAt s s.next_allocation).allocation_id + 1) % 0x10000) ∧
    (new Nat 1 = some ex1_0 ∧ insert ex1_0 7 = some (.ok 65536 ex1_1) ∧
      remove ex1_1 65536 = some ex1_2 ∧ insert ex1_2 8 = none) := by
  constructor
  · intro s v id s' hR hins
    obtain ⟨a, hg, _, _, _, hid, _, _, _, _, _, _, _⟩ := insert_ok_inv hins
    rw [allocAt_eq hg, hid]
    unfold slotOf genOf
    exact ⟨slot_bump _, gen_bump _⟩
  · decide

/-- Witness for C8_generation_increment: the first insert on a fresh
capacity-1 container bumps slot 0's generation from 0 to 1 (id 65536). -/
theorem C8_witness :
    slotOf 65536 = slotOf (allocAt ex1_0 ex1_0.next_allocation).allocation_id ∧
    genOf 65536 =
      (genOf (allocAt ex1_0 ex1_0.next_allocation).allocation_id + 1) % 0x10000 :=
  C8_generation_increment.1 ex1_0 7 65536 ex1_1 ex1_0_reach ex1_1_def

/-- Claim C9, counterexample: index does not fail on every id with contains
false.  After one insert on a fresh capacity-1 container, id 0 (slot 0,
generation 0) is not contained — the record's current id is 65536 — yet
index silently returns the stored value 7: the generation bits are never
compared. -/
theorem C9_counterexample :
    new Nat 1 = some ex1_0 ∧ insert ex1_0 7 = some (.ok 65536 ex1_1) ∧
    contains ex1_1 0 = false ∧ index ex1_1 0 = some 7 := by decide

/-- Claim C9 (amended): in a reachable state, index panics (models as `none`)
exactly on ids whose slot is out of range or whose record is free; for any id
whose slot holds a live record — including stale or foreign ids that merely
share the live id's low 16 bits — index silently returns the live value, as
if the genuine current id had been passed. -/
theorem C9_index_behavior (s : PackedFreelist Nat) (x : Nat) (hR : Reachable s) :
    ((s.allocations.length ≤ x % 0x10000 ∨
        (allocAt s (x % 0x10000)).object_index = TOMBSTONE) →
      index s x = none) ∧
    (x % 0x10000 < s.allocations.length →
      (allocAt s (x % 0x10000)).object_index ≠ TOMBSTONE →
      ∃ v, index s x = some v ∧
        index s x = index s ((allocAt s (x % 0x10000)).allocation_id)) := by
  have hInv := reachable_inv hR
  constructor
  · intro hcase
    unfold index
    rcases hcase with hoob | hfree
    · rw [List.getElem?_eq_none hoob]
    · by_cases hlt : x % 0x10000 < s.allocations.length
      · rw [get_allocAt hlt]
        show s.objects[(allocAt s (x % 0x10000)).object_index]? = none
        rw [hfree]
        apply List.getElem?_eq_none
        have h1 := hInv.hObjLe
        have h2 := hInv.hCapLt
        unfold TOMBSTONE at h2 ⊢
        omega
      · rw [List.getElem?_eq_none (by omega)]
  · intro hlt hT
    have hg := get_allocAt hlt
    have hmask := hInv.hSlot _ _ hg
    have hpos := (hInv.hLive _ _ hg hT).1
    have hlt2 : (allocAt s (x % 0x10000)).object_index < s.objects.length :=
      lt_of_lt_of_le hpos hInv.hNumLe
    refine ⟨s.objects[(allocAt s (x % 0x10000)).object_index], ?_, ?_⟩
    · unfold index
      rw [hg]
      show s.objects[(allocAt s (x % 0x10000)).object_index]? = _
      exact List.getElem?_eq_getElem hlt2
    · unfold index
      rw [hmask]

/-- Witness for C9_index_behavior: the silent-success clause at the
wrong-generation id 0 after one insert. -/
theorem C9_witness :
    ∃ v, index ex1_1 0 = some v ∧
      index ex1_1 0 = index ex1_1 ((allocAt ex1_1 (0 % 0x10000)).allocation_id) :=
  (C9_index_behavior ex1_1 0 ex1_1_reach).2 (by decide) (by decide)

/-- Claim C10: remove never consults the generation bits of its argument —
any two ids with equal low 16 bits produce identical results in every state;
in particular, in a reachable state whose slot x mod 2^16 holds a live
record, removing x behaves exactly like removing the record's genuine
current id: it succeeds, drops the size by one, and afterwards the genuine
id is no longer contained. -/
theorem C10_remove_ignores_generation :
    (∀ (s : PackedFreelist Nat) (i1 i2 : Nat), i1 % 0x10000 = i2 % 0x10000 →
      remove s i1 = remove s i2) ∧
    (∀ (s : PackedFreelist Nat) (x : Nat), Reachable s →
      x % 0x10000 < s.allocations.length →
      (allocAt s (x % 0x10000)).object_index ≠ TOMBSTONE →
      remove s x = remove s ((allocAt s (x % 0x10000)).allocation_id) ∧
      ∃ s', remove s x = some s' ∧ size s' + 1 = size s ∧
        contains s' ((allocAt s (x % 0x10000)).allocation_id) = false) := by
  constructor
  · exact fun s i1 i2 h => remove_mask s h
  · intro s x hR hlt hT
    have hInv := reachable_inv hR
    have hg := get_allocAt hlt
    have hmask := hInv.hSlot _ _ hg
    obtain ⟨s', h1, h2, h3, _, _⟩ := remove_live_spec hInv hg hT
    exact ⟨(remove_mask s hmask).symm, s', h1, h2, h3 _ hmask⟩

/-- Witness for C10_remove_ignores_generation: removing with the
never-issued id 0 (generation 0) destroys the value held under the genuine
id 65536. -/
theorem C10_witness :
    remove ex1_1 0 = remove ex1_1 ((allocAt ex1_1 (0 % 0x10000)).allocation_id) ∧
    ∃ s', remove ex1_1 0 = some s' ∧ size s' + 1 = size ex1_1 ∧
      contains s' ((allocAt ex1_1 (0 % 0x10000)).allocation_id) = false :=
  C10_remove_ignores_generation.2 ex1_1 0 ex1_1_reach (by decide) (by decide)

end PackedFreelistModel
